import Mathlib

deriving instance DecidableEq for Except

/-!
Verification development for the openchambers ingestion-and-retrieval core.

The Lean definitions below are a shallow embedding of the Python source in
`backend/src`: loader utilities (`loaders/utils.py`, `loaders/theyworkforyou/
debates.py`), the checkpointed pipeline (`pipelines/debate_pipeline.py`), the
chunking transformer (`transformers/chunking_transformer.py`), the summary
cache loader (`transformers/statement_summarizer.py`) and the retrieval
engine (`chatbot/tools.py`).  External collaborators (the tokenizer, the
embedding model, the SQL engine's scoring expressions, XML deserialisation
and JSON deserialisation) are passed in as explicit parameters or as already
decoded values; the control flow and arithmetic of the repository's own code
is translated directly.
-/

namespace OpenChambers

/-! ## Character-list models of the Python string primitives

Lean's own `String.trim`, `String.splitOn`, … are byte-position based and do
not reduce inside the kernel, so the Python string primitives used by the
source are modelled structurally over `List Char` and wrapped back into
`String` at the interfaces. -/

/-- Model of Python `s.split(sep)` for a one-character separator. -/
def pySplitChar (sep : Char) : List Char → List (List Char)
  | [] => [[]]
  | c :: rest =>
    match pySplitChar sep rest with
    | [] => [[]]
    | h :: t => if c == sep then [] :: h :: t else (c :: h) :: t

/-- Model of Python `s.strip()`: drop whitespace from both ends. -/
def pyStrip (l : List Char) : List Char :=
  ((l.dropWhile Char.isWhitespace).reverse.dropWhile Char.isWhitespace).reverse

/-- Model of Python `s.lower()` (ASCII case folding as used on party names
and policy names in this repository). -/
def pyLower (s : String) : String :=
  String.mk (s.toList.map Char.toLower)

/-- Model of Python string `<`: lexicographic comparison by code point. -/
def pyStrLt : List Char → List Char → Bool
  | [], [] => false
  | [], _ :: _ => true
  | _ :: _, [] => false
  | a :: as, b :: bs => if a < b then true else if b < a then false else pyStrLt as bs

/-! ## Python integer parsing (model of the builtin `int(str)` conversion)

`int(s)` strips surrounding whitespace, accepts one optional sign, and then
requires a nonempty run of decimal digits in which single underscores may
appear between digits.  Unicode digits accepted by Python are out of scope:
inputs in this repository are ASCII path segments. -/

/-- Valid Python integer digit run: all characters are digits or underscores,
it starts and ends with a digit, and no two underscores are adjacent. -/
def pyDigitsOk (l : List Char) : Bool :=
  (l.all fun c => c.isDigit || c == '_')
    && (match l.head? with | some c => c.isDigit | none => false)
    && (match l.getLast? with | some c => c.isDigit | none => false)
    && !(l.zip l.tail).any (fun p => p.1 == '_' && p.2 == '_')

/-- Numeric value of a digit run, ignoring underscores. -/
def digitsVal (l : List Char) : Nat :=
  (l.filter fun c => c.isDigit).foldl (fun acc c => 10 * acc + (c.toNat - 48)) 0

/-- Model of Python `int(s)`: `none` when the conversion would raise
`ValueError`. -/
def pyIntParse (s : String) : Option Int :=
  let t := pyStrip s.toList
  match t with
  | '+' :: rest => if pyDigitsOk rest then some (digitsVal rest) else none
  | '-' :: rest => if pyDigitsOk rest then some (-(digitsVal rest : Int)) else none
  | rest => if pyDigitsOk rest then some (digitsVal rest) else none

/-! ## `loaders/utils.py` -/

/-- Model of Python `s.split("/")[-1]`: the trailing `/`-separated segment. -/
def lastSegment (s : String) : String :=
  String.mk ((pySplitChar '/' s.toList).getLastD s.toList)

/-- Embedding of `extract_person_id` (`loaders/utils.py`).  The Python
function returns `None` only when its argument is `None`; otherwise it
evaluates `int(s.split("/")[-1])`, which raises `ValueError` (modelled as
`Except.error`) when the trailing segment is not a valid integer literal. -/
def extract_person_id (s : Option String) : Except String (Option Int) :=
  match s with
  | none => Except.ok none
  | some str =>
    match pyIntParse (lastSegment str) with
    | some n => Except.ok (some n)
    | none => Except.error "ValueError"

/-! ## `loaders/theyworkforyou/debates.py`: filename handling

`_extract_date` searches the filename for the first occurrence of the regex
`\d{4}-\d{2}-\d{2}` and raises `ValueError` when none exists.
`_filter_latest_versions` keeps, per embedded date, the single filename with
the greatest version-letter suffix (the suffix is the optional `[a-z]` group
of `\d{4}-\d{2}-\d{2}([a-z])?\.xml$`, and `""` when the regex does not match
or the group is absent). -/

/-- Ten characters matching `\d{4}-\d{2}-\d{2}` (ASCII digits; the Python
regex additionally admits other Unicode digits, which never occur in these
filenames). -/
def isDatePattern (l : List Char) : Bool :=
  match l with
  | [a, b, c, d, e, f, g, h, i, j] =>
    a.isDigit && b.isDigit && c.isDigit && d.isDigit && e == '-'
      && f.isDigit && g.isDigit && h == '-' && i.isDigit && j.isDigit
  | _ => false

/-- Leftmost match of `\d{4}-\d{2}-\d{2}`, as found by `re.search`. -/
def findDate : List Char → Option (List Char)
  | [] => none
  | c :: rest =>
    if isDatePattern ((c :: rest).take 10) then some ((c :: rest).take 10)
    else findDate rest

/-- Embedding of `Debates._extract_date`: the first embedded date, or a
raised `ValueError` when the filename holds none. -/
def extract_date (s : String) : Except String String :=
  match findDate s.toList with
  | some d => Except.ok (String.mk d)
  | none => Except.error "Date not found in filename."

/-- Does the character list end with a `\d{4}-\d{2}-\d{2}` date? -/
def endsWithDate (l : List Char) : Bool :=
  isDatePattern (l.drop (l.length - 10))

/-- Version-letter suffix assigned by `_filter_latest_versions`: the
captured `[a-z]` group of `\d{4}-\d{2}-\d{2}([a-z])?\.xml$`, and `""` when
the regex does not match or the group is empty. -/
def versionSuffix (s : String) : String :=
  let l := s.toList
  if (".xml".toList).isSuffixOf l then
    let core := l.take (l.length - 4)
    if endsWithDate core then ""
    else
      match core.getLast? with
      | some c =>
        if ('a' ≤ c && c ≤ 'z') && endsWithDate (core.take (core.length - 1)) then
          String.mk [c]
        else ""
      | none => ""
  else ""

/-- Lookup in the insertion-ordered model of the Python dict
`date_to_best`. -/
def dictLookup (d : List (String × String × String)) (k : String) :
    Option (String × String) :=
  match d with
  | [] => none
  | (d', s, f) :: rest => if d' = k then some (s, f) else dictLookup rest k

/-- Assignment `date_to_best[k] = v`: replaces in place, appends when the
key is new (Python dicts preserve insertion order). -/
def dictInsert (d : List (String × String × String)) (k : String)
    (v : String × String) : List (String × String × String) :=
  match d with
  | [] => [(k, v.1, v.2)]
  | (d', s, f) :: rest =>
    if d' = k then (k, v.1, v.2) :: rest else (d', s, f) :: dictInsert rest k v

/-- Loop body of `Debates._filter_latest_versions`. -/
def filterLatestGo : List String → List (String × String × String) →
    Except String (List (String × String × String))
  | [], acc => Except.ok acc
  | f :: rest, acc =>
    match extract_date f with
    | Except.error e => Except.error e
    | Except.ok date =>
      let suffix := versionSuffix f
      match dictLookup acc date with
      | none => filterLatestGo rest (dictInsert acc date (suffix, f))
      | some (cur, _) =>
        if pyStrLt cur.toList suffix.toList then
          filterLatestGo rest (dictInsert acc date (suffix, f))
        else filterLatestGo rest acc

/-- Embedding of `Debates._filter_latest_versions` (the `Except` layer
models the `ValueError` that `_extract_date` can raise). -/
def filter_latest_versions (files : List String) : Except String (List String) :=
  (filterLatestGo files []).map (fun acc => acc.map (fun t => t.2.2))

/-! ## `loaders/theyworkforyou/debates.py`: the context-tracking parser

`_parse_xml` walks `root.iter()`; heading and speech tags drive a context
frame, every other tag is ignored.  XML deserialisation is external: an
element arrives with its tag, text, attributes and (for speeches) the
already-itertext-joined raw text of each `<p>` child. -/

/-- Model of Python `s.split()` (split on whitespace runs, no empties). -/
def splitWsGo : List Char → List Char → List (List Char)
  | [], acc => if acc = [] then [] else [acc.reverse]
  | c :: rest, acc =>
    if c.isWhitespace then
      if acc = [] then splitWsGo rest [] else acc.reverse :: splitWsGo rest []
    else splitWsGo rest (c :: acc)

/-- Model of Python `sep.join(parts)` at the character level. -/
def pyJoinChars (sep : List Char) : List (List Char) → List Char
  | [] => []
  | [p] => p
  | p :: rest => p ++ sep ++ pyJoinChars sep rest

/-- Model of Python `sep.join(parts)`. -/
def pyJoin (sep : String) (parts : List String) : String :=
  String.mk (pyJoinChars sep.toList (parts.map String.toList))

/-- Does `needle` occur as a contiguous run in the character list? -/
def containsChars (needle : List Char) : List Char → Bool
  | [] => needle.isPrefixOf []
  | c :: rest => needle.isPrefixOf (c :: rest) || containsChars needle rest

/-- Model of Python `needle in hay` on strings. -/
def strContains (hay needle : String) : Bool :=
  containsChars needle.toList hay.toList

/-- Embedding of `Debates._normalize_whitespace`: `None` and `""` map to
`None` (Python falsiness), anything else to its whitespace-collapsed
form. -/
def normalize_whitespace (text : Option String) : Option String :=
  match text with
  | none => none
  | some s =>
    if s = "" then none
    else some (pyJoin " " ((splitWsGo s.toList []).map String.mk))

/-- Attributes of a `<speech>` element, plus the raw text of each of its
`<p>` children (each already flattened by `"".join(p.itertext())`). -/
structure SpeechAttrs where
  id : Option String
  speakername : Option String
  person_id : Option String
  speakeroffice : Option String
  type_attr : Option String
  colnum : Option String
  time : Option String
  url : Option String
  oral_qnum : Option String
  nospeaker : Option String
  paragraphs : List String
deriving DecidableEq

/-- One element visited by `root.iter()`; `other` stands for every tag the
traversal ignores (`p`, the root, …). -/
inductive DebElem where
  | oralHeading (text : Option String)
  | majorHeading (text : Option String)
  | minorHeading (text : Option String)
  | speech (attrs : SpeechAttrs)
  | other
deriving DecidableEq

/-- The mutable `context` dict of `_parse_xml`. -/
structure ParseContext where
  oral_heading : Option String
  major_heading : Option String
  minor_heading : Option String
  current_statement : Option String
  current_statement_id : Option String
  current_statement_speaker : Option String
  current_question : Option String
  current_question_id : Option String
  current_question_speaker : Option String
  current_context_question : Option String
  current_context_question_id : Option String
  current_context_question_speaker : Option String
  current_context_question_type : Option String
deriving DecidableEq

/-- Initial context: every slot `None`. -/
def initContext : ParseContext :=
  ⟨none, none, none, none, none, none, none, none, none, none, none, none, none⟩

/-- Embedding of the inner helper `reset_all_context`. -/
def resetAllContext (c : ParseContext) : ParseContext :=
  { c with
    current_statement := none
    current_statement_id := none
    current_statement_speaker := none
    current_question := none
    current_question_id := none
    current_question_speaker := none
    current_context_question := none
    current_context_question_id := none
    current_context_question_speaker := none
    current_context_question_type := none }

/-- Python `elem.get("type", "")`. -/
def speechType (a : SpeechAttrs) : String :=
  a.type_attr.getD ""

/-- Paragraph extraction: strip each `<p>`'s text, keep the nonempty ones. -/
def speechParagraphs (a : SpeechAttrs) : List String :=
  (a.paragraphs.map fun p => String.mk (pyStrip p.toList)).filter fun p => p ≠ ""

/-- `speech_text = " ".join(paragraphs)`. -/
def speechText (a : SpeechAttrs) : String :=
  pyJoin " " (speechParagraphs a)

/-- Context update performed for a `<speech>` element (the
`is_statement / is_main_question / is_supplementary_question /
is_intervention` elif-chain). -/
def speechContextUpdate (c : ParseContext) (a : SpeechAttrs) : ParseContext :=
  if speechType a = "Start Statement" then
    { c with
      current_statement := some (speechText a)
      current_statement_id := a.id
      current_statement_speaker := a.speakername
      current_question := none
      current_question_id := none
      current_question_speaker := none
      current_context_question := none
      current_context_question_id := none
      current_context_question_speaker := none
      current_context_question_type := none }
  else if speechType a = "Start Question" then
    { c with
      current_question := some (speechText a)
      current_question_id := a.id
      current_question_speaker := a.speakername
      current_context_question := none
      current_context_question_id := none
      current_context_question_speaker := none
      current_context_question_type := none }
  else if speechType a = "Start SupplementaryQuestion" then
    { c with
      current_context_question := some (speechText a)
      current_context_question_id := a.id
      current_context_question_speaker := a.speakername
      current_context_question_type := some "supplementary" }
  else if speechType a = "Start Intervention" then
    { c with
      current_context_question := some (speechText a)
      current_context_question_id := a.id
      current_context_question_speaker := a.speakername
      current_context_question_type := some "intervention" }
  else c

/-- Context transition for any element of the traversal. -/
def stepContext (c : ParseContext) : DebElem → ParseContext
  | DebElem.oralHeading t =>
    resetAllContext
      { c with
        oral_heading := normalize_whitespace t
        major_heading := none
        minor_heading := none }
  | DebElem.majorHeading t =>
    resetAllContext
      { c with major_heading := normalize_whitespace t, minor_heading := none }
  | DebElem.minorHeading t =>
    resetAllContext { c with minor_heading := normalize_whitespace t }
  | DebElem.speech a => speechContextUpdate c a
  | DebElem.other => c

/-- One row of the parser's output DataFrame, parameterised by the type of
the `person_id` column (raw attribute string before `extract_person_id`,
numeric id after). -/
structure UttRecord (π : Type) where
  xml_path : String
  date : String
  speech_id : Option String
  speakername : Option String
  person_id : π
  speakeroffice : Option String
  speech_type : String
  colnum : Option String
  time : Option String
  url : Option String
  oral_qnum : Option String
  nospeaker : Option String
  is_statement : Bool
  is_question : Bool
  is_main_question : Bool
  is_supplementary_question : Bool
  is_intervention : Bool
  is_answer : Bool
  statement_text : Option String
  statement_id : Option String
  statement_speaker : Option String
  question_text : Option String
  question_id : Option String
  question_speaker : Option String
  context_question_text : Option String
  context_question_id : Option String
  context_question_speaker : Option String
  context_question_type : Option String
  original_statement_text : Option String
  original_question_text : Option String
  original_context_question_text : Option String
  oral_heading : Option String
  major_heading : Option String
  minor_heading : Option String
  utterance : String
  original_utterance : String
  num_paragraphs : Nat
deriving DecidableEq

/-- The record dict built for a speech element, from the already-updated
context `c`. -/
def mkRecord (xmlPath date : String) (c : ParseContext) (a : SpeechAttrs) :
    UttRecord (Option String) :=
  { xml_path := xmlPath
    date := date
    speech_id := a.id
    speakername := a.speakername
    person_id := a.person_id
    speakeroffice := a.speakeroffice
    speech_type := speechType a
    colnum := a.colnum
    time := a.time
    url := a.url
    oral_qnum := a.oral_qnum
    nospeaker := a.nospeaker
    is_statement := speechType a = "Start Statement"
    is_question := speechType a = "Start Question"
      || speechType a = "Start SupplementaryQuestion"
      || speechType a = "Start Intervention"
    is_main_question := speechType a = "Start Question"
    is_supplementary_question := speechType a = "Start SupplementaryQuestion"
    is_intervention := speechType a = "Start Intervention"
    is_answer := strContains (speechType a) "Answer"
      || (speechType a = "Continuation Speech"
        && c.current_context_question_type == some "intervention")
    statement_text := c.current_statement
    statement_id := c.current_statement_id
    statement_speaker := c.current_statement_speaker
    question_text := c.current_question
    question_id := c.current_question_id
    question_speaker := c.current_question_speaker
    context_question_text := c.current_context_question
    context_question_id := c.current_context_question_id
    context_question_speaker := c.current_context_question_speaker
    context_question_type := c.current_context_question_type
    original_statement_text := c.current_statement
    original_question_text := c.current_question
    original_context_question_text := c.current_context_question
    oral_heading := c.oral_heading
    major_heading := c.major_heading
    minor_heading := c.minor_heading
    utterance := speechText a
    original_utterance := speechText a
    num_paragraphs := (speechParagraphs a).length }

/-- Traversal loop of `_parse_xml`: headings and speeches update the
context; a speech emits a record carrying a by-value snapshot of the
updated context; building a record evaluates `_extract_date(xml_path)`,
whose `ValueError` propagates. -/
def parseGo (xmlPath : String) (dateE : Except String String) :
    ParseContext → List DebElem → Except String (List (UttRecord (Option String)))
  | _, [] => Except.ok []
  | c, DebElem.speech a :: rest =>
    match dateE with
    | Except.error err => Except.error err
    | Except.ok date =>
      (parseGo xmlPath dateE (speechContextUpdate c a) rest).map
        fun rs => mkRecord xmlPath date (speechContextUpdate c a) a :: rs
  | c, e :: rest => parseGo xmlPath dateE (stepContext c e) rest

/-- Retyping of a record once `extract_person_id` has run on its raw
`person_id` column. -/
def withPersonId (r : UttRecord (Option String)) (pid : Option Int) :
    UttRecord (Option Int) :=
  { xml_path := r.xml_path, date := r.date, speech_id := r.speech_id
    speakername := r.speakername, person_id := pid
    speakeroffice := r.speakeroffice, speech_type := r.speech_type
    colnum := r.colnum, time := r.time, url := r.url
    oral_qnum := r.oral_qnum, nospeaker := r.nospeaker
    is_statement := r.is_statement, is_question := r.is_question
    is_main_question := r.is_main_question
    is_supplementary_question := r.is_supplementary_question
    is_intervention := r.is_intervention, is_answer := r.is_answer
    statement_text := r.statement_text, statement_id := r.statement_id
    statement_speaker := r.statement_speaker
    question_text := r.question_text, question_id := r.question_id
    question_speaker := r.question_speaker
    context_question_text := r.context_question_text
    context_question_id := r.context_question_id
    context_question_speaker := r.context_question_speaker
    context_question_type := r.context_question_type
    original_statement_text := r.original_statement_text
    original_question_text := r.original_question_text
    original_context_question_text := r.original_context_question_text
    oral_heading := r.oral_heading, major_heading := r.major_heading
    minor_heading := r.minor_heading, utterance := r.utterance
    original_utterance := r.original_utterance
    num_paragraphs := r.num_paragraphs }

/-- Embedding of `Debates._parse_xml`: traverse, and — unless the frame is
empty — drop `nospeaker="true"` rows and convert the `person_id` column
(whose `ValueError` for unparsable identifiers propagates). -/
def parse_xml (xmlPath : String) (elems : List DebElem) :
    Except String (List (UttRecord (Option Int))) :=
  match parseGo xmlPath (extract_date xmlPath) initContext elems with
  | Except.error e => Except.error e
  | Except.ok records =>
    if records = [] then Except.ok []
    else
      (records.filter fun r => r.nospeaker ≠ some "true").mapM
        fun r => (extract_person_id r.person_id).map (withPersonId r)

/-- Is this element one of the three heading kinds? -/
def isHeading : DebElem → Bool
  | DebElem.oralHeading _ => true
  | DebElem.majorHeading _ => true
  | DebElem.minorHeading _ => true
  | _ => false

/-! ## `transformers/chunking_transformer.py`

The tokenizer is an external collaborator: token counting is a parameter
`ct : String → Nat` standing for `len(tokenizer.encode(text,
add_special_tokens=False))` on nonempty text. -/

/-- Embedding of `ChunkingTransformer._count_tokens` (empty text counts
zero, otherwise the external tokenizer decides). -/
def count_tokens (ct : String → Nat) (s : String) : Nat :=
  if s = "" then 0 else ct s

/-- The `CONTEXT_SEPARATOR` literal. -/
def CONTEXT_SEPARATOR : String :=
  String.mk ['-', '-', '-', '\n', 'C', 'O', 'N', 'T', 'E', 'X', 'T', ':']

/-- First occurrence split, as Python `s.split(sep, 1)`: the part before
the first occurrence of `sep` and the part after it, or `none` when `sep`
does not occur. -/
def splitFirst (sep : List Char) : List Char → Option (List Char × List Char)
  | [] => if sep.isPrefixOf [] then some ([], []) else none
  | c :: rest =>
    if sep.isPrefixOf (c :: rest) then some ([], (c :: rest).drop sep.length)
    else (splitFirst sep rest).map fun p => (c :: p.1, p.2)

/-- Embedding of `ChunkingTransformer._split_context`: returns
`(context, content)`; the context keeps the separator prefix, the content
is stripped. -/
def split_context (formatted : String) : String × String :=
  match splitFirst CONTEXT_SEPARATOR.toList formatted.toList with
  | some p => (String.mk (CONTEXT_SEPARATOR.toList ++ p.2), String.mk (pyStrip p.1))
  | none => ("", formatted)

/-- Is the last consumed character (head of the reversed accumulator)
sentence-ending punctuation, as the lookbehind `(?<=[.!?])` asks? -/
def lastIsPunct (curRev : List Char) : Bool :=
  match curRev.head? with
  | some p => p == '.' || p == '!' || p == '?'
  | none => false

/-- Single-pass scanner of `re.split(r"(?<=[.!?])\s+(?=[A-Z])", text)`:
`curRev` holds the current piece (reversed) up to the pending whitespace
run `wsRev`; a non-whitespace character closes the run, and the run was a
separator exactly when the piece ended in punctuation and the character is
an ASCII capital. -/
def sentScan : List Char → List Char → List Char → List (List Char)
  | [], curRev, wsRev => [(wsRev ++ curRev).reverse]
  | c :: rest, curRev, wsRev =>
    if c.isWhitespace then sentScan rest curRev (c :: wsRev)
    else
      if wsRev ≠ [] && lastIsPunct curRev && decide ('A' ≤ c) && decide (c ≤ 'Z') then
        curRev.reverse :: sentScan rest [c] []
      else sentScan rest (c :: (wsRev ++ curRev)) []

/-- Embedding of `ChunkingTransformer._split_sentences`. -/
def split_sentences (text : String) : List String :=
  ((sentScan text.toList [] []).map fun l => String.mk (pyStrip l)).filter
    fun s => s ≠ ""

/-- Total token count of a sentence list. -/
def sumTokens (ct : String → Nat) (l : List String) : Nat :=
  (l.map (count_tokens ct)).sum

/-- Overlap retention: walk the finalized chunk's sentences from the end,
keeping a suffix whose cumulative token count stays within the overlap
budget, stopping at the first sentence that does not fit. -/
def takeOverlapRev (ct : String → Nat) (overlap : Nat) :
    List String → Nat → List String
  | [], _ => []
  | s :: rest, used =>
    if used + count_tokens ct s ≤ overlap then
      takeOverlapRev ct overlap rest (used + count_tokens ct s) ++ [s]
    else []

/-- Greedy sentence-accumulation loop of
`ChunkingTransformer._create_chunks` (chunks as sentence lists; the
effective chunk size is an integer because
`max_seq_length - context_tokens - 10` may be negative). -/
def buildChunksGo (ct : String → Nat) (effSize : Int) (overlap : Nat) :
    List String → List String → Nat → List (List String)
  | [], cur, _ => if cur = [] then [] else [cur]
  | s :: rest, cur, curTok =>
    if (curTok + count_tokens ct s : Int) > effSize ∧ cur ≠ [] then
      cur :: buildChunksGo ct effSize overlap rest
        (takeOverlapRev ct overlap cur.reverse 0 ++ [s])
        (sumTokens ct (takeOverlapRev ct overlap cur.reverse 0) + count_tokens ct s)
    else buildChunksGo ct effSize overlap rest (cur ++ [s]) (curTok + count_tokens ct s)

/-- One chunk of `_create_chunks`' output. -/
structure ChunkInfo where
  text : String
  start_char : Nat
  end_char : Nat
deriving DecidableEq

/-- Embedding of `ChunkingTransformer._calculate_char_offsets` for chunk
`i` of `n` over an original text of length `L`. -/
def calcOffsets (n L i : Nat) : Nat × Nat :=
  (if 1 < n then i * L / n else 0, if i < n - 1 then (i + 1) * L / n else L)

/-- Attach the calculated offsets to the chunk texts, as the
`for i, chunk in enumerate(chunks)` loop does. -/
def withOffsets (L : Nat) (texts : List String) : List ChunkInfo :=
  texts.enum.map fun it =>
    ⟨it.2, (calcOffsets texts.length L it.1).1, (calcOffsets texts.length L it.1).2⟩

/-- Embedding of `ChunkingTransformer._create_chunks`: sentence-split the
content; a degenerate split yields the whole content spanning `[0, L)`;
otherwise run the greedy loop and attach the approximated offsets. -/
def create_chunks (ct : String → Nat) (content original : String)
    (effSize : Int) (overlap : Nat) : List ChunkInfo :=
  if split_sentences content = [] then [⟨content, 0, original.length⟩]
  else
    withOffsets original.length
      ((buildChunksGo ct effSize overlap (split_sentences content) [] 0).map
        (pyJoin " "))

/-- Embedding of `ChunkingTransformer._format_chunk_embedding`. -/
def format_chunk_embedding (chunkText context : String) : String :=
  if context = "" then chunkText
  else chunkText ++ String.mk ['\n', '\n'] ++ context

/-- One output row of the chunking transformer. -/
structure ChunkRow where
  chunk_index : Nat
  chunk_text : String
  chunk_embedding_text : String
  chunk_start_char : Nat
  chunk_end_char : Nat
deriving DecidableEq

/-- Embedding of the per-row body of `ChunkingTransformer.transform`:
`utterance` is the formatted text, `original` the original utterance,
`tokenCount` the precomputed `token_count` column. -/
def transform_row (ct : String → Nat) (max_seq_length chunk_size overlap : Nat)
    (utterance original : String) (tokenCount : Nat) : List ChunkRow :=
  if tokenCount ≤ max_seq_length then
    [⟨0, original, utterance, 0, original.length⟩]
  else
    ((create_chunks ct (split_context utterance).2 original
        (min (chunk_size : Int)
          ((max_seq_length : Int) - count_tokens ct (split_context utterance).1 - 10))
        overlap).enum.map
      fun ic =>
        ⟨ic.1, ic.2.text, format_chunk_embedding ic.2.text (split_context utterance).1,
          ic.2.start_char, ic.2.end_char⟩)

/-! ## JSON state files (`debate_pipeline.py` `_load_checkpoint`,
`statement_summarizer.py` `_load_cache`)

JSON deserialisation is external (`json.loads`); its outcome is the input of
the loaders: the file can be absent, raise `IOError` on read, raise
`JSONDecodeError`, or produce a decoded value. -/

/-- Decoded JSON value (numbers are irrelevant to the claims and carried as
integers). -/
inductive JsonVal where
  | null
  | bool (b : Bool)
  | num (n : Int)
  | str (s : String)
  | arr (xs : List JsonVal)
  | obj (fields : List (String × JsonVal))

/-- Outcome of `path.exists()` / `path.read_text()` / `json.loads(...)` for
one on-disk state file. -/
inductive FileRead where
  | absent
  | ioError
  | malformed
  | parsed (j : JsonVal)

/-- Model of Python `data.get(key, default)` over a decoded JSON object's
field list (first binding wins, as in a dict). -/
def jsonGet (fields : List (String × JsonVal)) (key : String) : Option JsonVal :=
  match fields with
  | [] => none
  | (k, v) :: rest => if k = key then some v else jsonGet rest key

/-- Model of Python `set(xs)` over a decoded JSON value: lists of hashable
elements become element sets (kept as lists, membership-equivalent),
strings become their character set, and unhashable/non-iterable values
raise `TypeError`.  (Python's `set` also collapses duplicates; the model
keeps the list, which is membership-equivalent.) -/
def pySetOf : JsonVal → Except String (List JsonVal)
  | JsonVal.arr xs =>
    if xs.all fun x =>
        match x with
        | JsonVal.arr _ => false
        | JsonVal.obj _ => false
        | _ => true then
      Except.ok xs
    else Except.error "TypeError"
  | JsonVal.str s => Except.ok (s.toList.map fun c => JsonVal.str (String.mk [c]))
  | JsonVal.obj fields => Except.ok (fields.map fun kv => JsonVal.str kv.1)
  | _ => Except.error "TypeError"

/-- Embedding of `DebatePipeline._load_checkpoint`: absent file, read
failure and JSON parse failure all yield the empty set; a decoded value is
read through `data.get("processed_files", [])` (raising `AttributeError`
when the decoded value is not an object) and passed to `set(...)`. -/
def load_checkpoint : FileRead → Except String (List JsonVal)
  | FileRead.absent => Except.ok []
  | FileRead.ioError => Except.ok []
  | FileRead.malformed => Except.ok []
  | FileRead.parsed j =>
    match j with
    | JsonVal.obj fields =>
      match jsonGet fields "processed_files" with
      | some v => pySetOf v
      | none => Except.ok []
    | _ => Except.error "AttributeError"

/-- Embedding of `StatementSummarizer._load_cache`: absent file, read
failure and JSON parse failure all yield the empty cache; a decoded value
is returned unchanged. -/
def load_cache : FileRead → Except String JsonVal
  | FileRead.absent => Except.ok (JsonVal.obj [])
  | FileRead.ioError => Except.ok (JsonVal.obj [])
  | FileRead.malformed => Except.ok (JsonVal.obj [])
  | FileRead.parsed j => Except.ok j

/-! ## `pipelines/debate_pipeline.py` and `loaders/base.py`

The pipeline is modelled over an abstract per-document parse function
(`Debates._parse_xml` composed with its exception handler) and an abstract
batch-processing function (the transformer chain, embedding call and
database insert fused: `none` models a raised batch-level exception). -/

/-- One row of the loader's tabular output; only the `xml_path` column is
load-bearing for checkpointing, the payload stands for all other columns. -/
structure UttRow where
  xml_path : String
  payload : Nat
deriving DecidableEq

/-- Embedding of `Debates.load_batch`: slice the file list, parse each file
of the slice (a failed parse is caught, logged and skipped), return the
concatenation — which is empty when the slice is empty or every parse
failed. -/
def load_batch (files : List String) (parse : String → Option (List UttRow))
    (batch_number batch_size : Nat) : List UttRow :=
  if (files.drop (batch_number * batch_size)).take batch_size = [] then []
  else if ((files.drop (batch_number * batch_size)).take batch_size).filterMap parse = []
    then []
  else (((files.drop (batch_number * batch_size)).take batch_size).filterMap parse).flatten

/-- Loop of `BaseLoader.iter_batches`: yield batches until one is empty.
The fuel argument only bounds the recursion; `files.length + 1` is always
enough, because each yielded batch consumes at least one file. -/
def iter_batches_aux (loadB : Nat → List UttRow) : Nat → Nat → List (List UttRow)
  | 0, _ => []
  | fuel + 1, b =>
    if loadB b = [] then [] else loadB b :: iter_batches_aux loadB fuel (b + 1)

/-- Embedding of `BaseLoader.iter_batches` for the `Debates` loader. -/
def iter_batches (files : List String) (parse : String → Option (List UttRow))
    (batch_size : Nat) : List (List UttRow) :=
  iter_batches_aux (load_batch files parse · batch_size) (files.length + 1) 0

/-- Net result of `DebatePipeline.run`: final checkpoint contents, rows
persisted during the run, number of batches processed. -/
structure RunResult where
  processed : List String
  persisted : List UttRow
  batches_processed : Nat
deriving DecidableEq

/-- Loop body of `DebatePipeline.run`: per yielded batch, stop on
`max_batches`, skip a batch whose files are all checkpointed, filter out
checkpointed files, process (transform + embed + insert; an exception
aborts the run), then extend the checkpoint with the batch's new files. -/
def run_loop (process : List UttRow → Option (List UttRow)) (maxB : Option Nat) :
    List (List UttRow) → List String → List UttRow → Nat → Except String RunResult
  | [], processed, persisted, bp => Except.ok ⟨processed, persisted, bp⟩
  | df :: rest, processed, persisted, bp =>
    if match maxB with | some m => decide (m ≤ bp) | none => false then
      Except.ok ⟨processed, persisted, bp⟩
    else
      let batch_files := (df.map fun r => r.xml_path).dedup
      if ∀ f ∈ batch_files, f ∈ processed then
        run_loop process maxB rest processed persisted bp
      else
        let new_files := batch_files.filter fun f => f ∉ processed
        let df' := df.filter fun r => r.xml_path ∈ new_files
        if df' = [] then run_loop process maxB rest processed persisted bp
        else
          match process df' with
          | none => Except.error "batch failure"
          | some out =>
            run_loop process maxB rest (processed ++ new_files) (persisted ++ out) (bp + 1)

/-- Embedding of `DebatePipeline.run`: iterate the loader's batches through
`run_loop`, starting from a loaded checkpoint. -/
def run (files : List String) (parse : String → Option (List UttRow))
    (batch_size : Nat) (maxB : Option Nat)
    (process : List UttRow → Option (List UttRow))
    (processed₀ : List String) : Except String RunResult :=
  run_loop process maxB (iter_batches files parse batch_size) processed₀ [] 0

/-! ## `chatbot/tools.py`: the retrieval engine

The SQL engine and the scoring expressions (`<#>` vector distance, `<@>`
BM25 rank) are external: scores arrive as rational-valued functions of the
joined rows, and `_chunk_search`'s statement is modelled by its relational
semantics — group chunks' scores by utterance id taking the minimum, join
to the utterance table, filter, optionally cut by `min_score`, order
ascending, limit `top_k`. -/

/-- The columns of `Utterance` that the retrieval query reads.  Dates are
ISO `YYYY-MM-DD` strings, on which SQL date comparison coincides with
lexicographic comparison. -/
structure Utt where
  id : Nat
  party_at_time : Option String
  person_id : Option Int
  date : String
deriving DecidableEq

/-- An `utterance_chunk` row. -/
structure UChunk where
  id : Nat
  utterance_id : Nat
deriving DecidableEq

/-- An `embedding` row (the vector itself is consumed only through the
external distance expression). -/
structure EmbRow where
  chunk_id : Nat
  vec : Nat
deriving DecidableEq

/-- The scoring subquery's `GROUP BY utterance_id` with `MIN(score)`: one
row per distinct utterance id, carrying the least score among that id's
scored rows. -/
def groupMin (rows : List (Nat × ℚ)) : List (Nat × ℚ) :=
  (rows.map Prod.fst).dedup.filterMap fun u =>
    (((rows.filter fun r => r.1 = u).map Prod.snd).min?).map fun s => (u, s)

/-- The `party` condition: skipped for `None` and for `""` (Python
truthiness); otherwise case-insensitive equality, false on a null
`party_at_time` (SQL three-valued logic). -/
def passesParty (party : Option String) (u : Utt) : Bool :=
  match party with
  | none => true
  | some p =>
    if p = "" then true
    else
      match u.party_at_time with
      | some q => pyLower q = pyLower p
      | none => false

/-- The `person_id` condition: skipped for `None` and for `0` (Python
truthiness), false on a null column. -/
def passesPerson (person : Option Int) (u : Utt) : Bool :=
  match person with
  | none => true
  | some pid => if pid = 0 then true else u.person_id == some pid

/-- The `date_from` condition (inclusive lower bound; skipped for `None`
and `""`). -/
def passesFrom (dateFrom : Option String) (u : Utt) : Bool :=
  match dateFrom with
  | none => true
  | some d => if d = "" then true else !pyStrLt u.date.toList d.toList

/-- The `date_to` condition (inclusive upper bound; skipped for `None` and
`""`). -/
def passesTo (dateTo : Option String) (u : Utt) : Bool :=
  match dateTo with
  | none => true
  | some d => if d = "" then true else !pyStrLt d.toList u.date.toList

/-- Conjunction of the four optional filters. -/
def passesFilters (party : Option String) (person : Option Int)
    (dateFrom dateTo : Option String) (u : Utt) : Bool :=
  passesParty party u && passesPerson person u && passesFrom dateFrom u
    && passesTo dateTo u

/-- The join of the utterance table to the best-score subquery on
`best.utterance_id = Utterance.id`. -/
def joinBest (scored : List (Nat × ℚ)) (utts : List Utt) : List (Utt × ℚ) :=
  utts.filterMap fun u => ((groupMin scored).lookup u.id).map fun s => (u, s)

/-- The optional `best_score <= min_score` cutoff. -/
def applyCut (minScore : Option ℚ) (l : List (Utt × ℚ)) : List (Utt × ℚ) :=
  match minScore with
  | none => l
  | some m => l.filter fun us => us.2 ≤ m

/-- Relational semantics of `HansardRetrievalTool._chunk_search`, keeping
each returned utterance's best score alongside it: group the scored rows
by utterance id with `MIN`, join back to the utterance table, apply the
filters, apply the optional score cutoff, order ascending by best score,
truncate to `top_k`. -/
def chunkSearchScored (scored : List (Nat × ℚ)) (utts : List Utt)
    (party : Option String) (person : Option Int)
    (dateFrom dateTo : Option String) (minScore : Option ℚ) (top_k : Nat) :
    List (Utt × ℚ) :=
  ((applyCut minScore
      ((joinBest scored utts).filter fun us =>
        passesFilters party person dateFrom dateTo us.1)).insertionSort
    fun a b => a.2 ≤ b.2).take top_k

/-- The list of `Utterance` objects `_chunk_search` actually returns. -/
def chunk_search (scored : List (Nat × ℚ)) (utts : List Utt)
    (party : Option String) (person : Option Int)
    (dateFrom dateTo : Option String) (minScore : Option ℚ) (top_k : Nat) :
    List Utt :=
  (chunkSearchScored scored utts party person dateFrom dateTo minScore top_k).map
    Prod.fst

/-- Scored rows of the vector-mode subquery: `utterance_chunk` joined to
`embedding` on `embedding.chunk_id = utterance_chunk.id`, scored by the
external distance expression. -/
def vectorScored (chunks : List UChunk) (embs : List EmbRow)
    (distScore : EmbRow → ℚ) : List (Nat × ℚ) :=
  (chunks.map fun c =>
    (embs.filter fun e => e.chunk_id = c.id).map fun e =>
      (c.utterance_id, distScore e)).flatten

/-- Scored rows of the lexical (BM25) subquery: every chunk scored by the
external rank expression. -/
def bm25Scored (chunks : List UChunk) (textScore : UChunk → ℚ) :
    List (Nat × ℚ) :=
  chunks.map fun c => (c.utterance_id, textScore c)

/-- Embedding of `HansardRetrievalTool._vector_search`: resolve the
effective minimum similarity (per-call value, else the configured
default), pass `-min_similarity` as the score cutoff when present. -/
def vector_search (chunks : List UChunk) (embs : List EmbRow)
    (distScore : EmbRow → ℚ) (utts : List Utt) (party : Option String)
    (person : Option Int) (dateFrom dateTo : Option String)
    (min_similarity default_min_similarity : Option ℚ) (top_k : Nat) :
    List (Utt × ℚ) :=
  chunkSearchScored (vectorScored chunks embs distScore) utts party person
    dateFrom dateTo
    ((match min_similarity with
      | some s => some s
      | none => default_min_similarity).map fun s => -s)
    top_k

/-- Embedding of `HansardRetrievalTool._bm25_search`: lexical scoring, no
score cutoff. -/
def bm25_search (chunks : List UChunk) (textScore : UChunk → ℚ)
    (utts : List Utt) (party : Option String) (person : Option Int)
    (dateFrom dateTo : Option String) (top_k : Nat) : List (Utt × ℚ) :=
  chunkSearchScored (bm25Scored chunks textScore) utts party person
    dateFrom dateTo none top_k

/-! ## `chatbot/tools.py`: `get_mp_voting_record`

The query selects the policy-summary rows for one person and a
case-insensitive policy-name substring at the latest period id present in
that same filtered subset, collapses duplicates per `(person_id, name)`
with `DISTINCT ON` under `ORDER BY person_id, name, alignment DESC,
cast-votes DESC` (SQL `DESC` places nulls first), limits, and derives
percentage fields in Python. -/

/-- An `mp_policy_summary` row (all vote counts and the score are nullable
columns). -/
structure PolicyRow where
  person_id : Int
  name : String
  policy_description : Option String
  context_description : Option String
  mp_stance_label : Option String
  mp_policy_alignment_score : Option ℚ
  period_id : Option Int
  num_votes_same : Option Int
  num_strong_votes_same : Option Int
  num_votes_different : Option Int
  num_strong_votes_different : Option Int
  num_votes_absent : Option Int
  num_strong_votes_absent : Option Int
  num_votes_abstain : Option Int
  num_strong_votes_abstain : Option Int
deriving DecidableEq

/-- The shared `person_id = p AND name ILIKE '%term%'` condition
(`search_term` is a plain keyword, so `ILIKE` is substring match after
case folding). -/
def matchesFilter (p : Int) (term : String) (r : PolicyRow) : Bool :=
  r.person_id == p && strContains (pyLower r.name) (pyLower term)

/-- The scalar subquery `MAX(period_id)` over the same person+substring
filter, restricted to non-null period ids. -/
def latestPeriod (rows : List PolicyRow) (p : Int) (term : String) : Option Int :=
  ((rows.filter fun r => matchesFilter p term r && r.period_id.isSome).filterMap
    fun r => r.period_id).max?

/-- The outer `WHERE` clause: filter plus `period_id = latest` (empty when
the subquery returns SQL `NULL`, since `= NULL` is never true). -/
def matchingRows (rows : List PolicyRow) (p : Int) (term : String) :
    List PolicyRow :=
  match latestPeriod rows p term with
  | none => []
  | some v => rows.filter fun r => matchesFilter p term r && r.period_id == some v

/-- Sort key for `ORDER BY ... mp_policy_alignment_score DESC`: Postgres
puts nulls first in `DESC`, so a null score is the dual-least element. -/
def alignKey (r : PolicyRow) : OrderDual (WithTop ℚ) :=
  OrderDual.toDual
    (match r.mp_policy_alignment_score with
    | some q => (q : WithTop ℚ)
    | none => ⊤)

/-- Sort key for `ORDER BY (num_votes_same + num_votes_different) DESC`
(SQL addition with a null operand is null, hence first in `DESC`). -/
def votesKey (r : PolicyRow) : OrderDual (WithTop Int) :=
  OrderDual.toDual
    (match r.num_votes_same, r.num_votes_different with
    | some a, some b => ((a + b : Int) : WithTop Int)
    | _, _ => ⊤)

/-- The full `ORDER BY person_id, name, alignment DESC, cast-votes DESC`
key (policy names compared by code point, a faithful stand-in for the
database's byte-order collation on these ASCII names). -/
def orderKey (r : PolicyRow) :
    Lex (Int × Lex (List Char ×
      Lex (OrderDual (WithTop ℚ) × OrderDual (WithTop Int)))) :=
  toLex (r.person_id, toLex (r.name.toList, toLex (alignKey r, votesKey r)))

/-- `DISTINCT ON (person_id, name)`: keep the first row of each key in the
already-sorted list. -/
def distinctOnGo (seen : List (Int × String)) : List PolicyRow → List PolicyRow
  | [] => []
  | r :: rest =>
    if (r.person_id, r.name) ∈ seen then distinctOnGo seen rest
    else r :: distinctOnGo ((r.person_id, r.name) :: seen) rest

/-- `DISTINCT ON` over an empty seen-set. -/
def distinctOn (l : List PolicyRow) : List PolicyRow :=
  distinctOnGo [] l

/-- Model of Python `round(x, 1)`'s integer core: round to nearest, ties
to even (Python's bankers' rounding; the float representation error that
`round` inherits from binary floats is out of scope — these quotients of
small integers are handled exactly). -/
def roundHalfEven (x : ℚ) : Int :=
  if x - ⌊x⌋ < 1/2 then ⌊x⌋
  else if (1 : ℚ)/2 < x - ⌊x⌋ then ⌊x⌋ + 1
  else if ⌊x⌋ % 2 = 0 then ⌊x⌋ else ⌊x⌋ + 1

/-- Python `round(x, 1)`. -/
def round1 (x : ℚ) : ℚ :=
  (roundHalfEven (x * 10) : ℚ) / 10

/-- One element of `get_mp_voting_record`'s result list. -/
structure VoteRec where
  person_id : Int
  policy_name : String
  policy_description : Option String
  context_description : Option String
  mp_stance_label : Option String
  mp_policy_alignment_score : Option ℚ
  num_votes_same : Option Int
  num_strong_votes_same : Option Int
  num_votes_different : Option Int
  num_strong_votes_different : Option Int
  num_votes_absent : Option Int
  num_strong_votes_absent : Option Int
  num_votes_abstain : Option Int
  num_strong_votes_abstain : Option Int
  total_votes : Int
  total_opportunities : Int
  percent_aligned : ℚ
  percent_opposed : ℚ
  percent_absent : ℚ
  percent_abstain : ℚ
deriving DecidableEq

/-- The Python result-dict construction: `or 0` null-coalescing on counts,
percentages of cast votes and of total opportunities (0 when the
denominator is falsy), rounded to one decimal. -/
def mkVoteRec (r : PolicyRow) : VoteRec :=
  { person_id := r.person_id
    policy_name := r.name
    policy_description := r.policy_description
    context_description := r.context_description
    mp_stance_label := r.mp_stance_label
    mp_policy_alignment_score := r.mp_policy_alignment_score
    num_votes_same := r.num_votes_same
    num_strong_votes_same := r.num_strong_votes_same
    num_votes_different := r.num_votes_different
    num_strong_votes_different := r.num_strong_votes_different
    num_votes_absent := r.num_votes_absent
    num_strong_votes_absent := r.num_strong_votes_absent
    num_votes_abstain := r.num_votes_abstain
    num_strong_votes_abstain := r.num_strong_votes_abstain
    total_votes := r.num_votes_same.getD 0 + r.num_votes_different.getD 0
    total_opportunities := r.num_votes_same.getD 0 + r.num_votes_different.getD 0
      + r.num_votes_absent.getD 0 + r.num_votes_abstain.getD 0
    percent_aligned :=
      if r.num_votes_same.getD 0 + r.num_votes_different.getD 0 = 0 then 0
      else round1 ((r.num_votes_same.getD 0 : ℚ) /
        ((r.num_votes_same.getD 0 : ℚ) + (r.num_votes_different.getD 0 : ℚ)) * 100)
    percent_opposed :=
      if r.num_votes_same.getD 0 + r.num_votes_different.getD 0 = 0 then 0
      else round1 ((r.num_votes_different.getD 0 : ℚ) /
        ((r.num_votes_same.getD 0 : ℚ) + (r.num_votes_different.getD 0 : ℚ)) * 100)
    percent_absent :=
      if r.num_votes_same.getD 0 + r.num_votes_different.getD 0
          + r.num_votes_absent.getD 0 + r.num_votes_abstain.getD 0 = 0 then 0
      else round1 ((r.num_votes_absent.getD 0 : ℚ) /
        ((r.num_votes_same.getD 0 : ℚ) + (r.num_votes_different.getD 0 : ℚ)
          + (r.num_votes_absent.getD 0 : ℚ) + (r.num_votes_abstain.getD 0 : ℚ)) * 100)
    percent_abstain :=
      if r.num_votes_same.getD 0 + r.num_votes_different.getD 0
          + r.num_votes_absent.getD 0 + r.num_votes_abstain.getD 0 = 0 then 0
      else round1 ((r.num_votes_abstain.getD 0 : ℚ) /
        ((r.num_votes_same.getD 0 : ℚ) + (r.num_votes_different.getD 0 : ℚ)
          + (r.num_votes_absent.getD 0 : ℚ) + (r.num_votes_abstain.getD 0 : ℚ)) * 100) }

/-- Embedding of `HansardRetrievalTool.get_mp_voting_record`. -/
def get_mp_voting_record (rows : List PolicyRow) (person_id : Int)
    (search_term : String) (limit : Nat) : List VoteRec :=
  ((distinctOn ((matchingRows rows person_id search_term).insertionSort
      fun a b => orderKey a ≤ orderKey b)).take limit).map mkVoteRec

/-! ## Theorems -/

/-- C7: the claim says extraction never raises; in fact
`extract_person_id` evaluates Python `int(...)` on the trailing segment,
which raises `ValueError` on an unparsable segment such as `"abc"`. -/
theorem C7_counterexample :
    extract_person_id (some "abc") = Except.error "ValueError" ∧
      ∀ v : Option Int, extract_person_id (some "abc") ≠ Except.ok v := by
  constructor
  · decide
  · intro v h
    rw [show extract_person_id (some "abc") = Except.error "ValueError" from by decide] at h
    exact Except.noConfusion h

/-- C7 (amended): the numeric person id is the trailing `/`-separated
segment parsed as a Python integer; an absent (`None`) identifier yields a
null id; a present identifier never yields a null id — when its trailing
segment is unparsable the extraction raises `ValueError` instead. -/
theorem C7_extract_person_id_amended :
    extract_person_id none = Except.ok none ∧
      (∀ s : String, ∀ n : Int, pyIntParse (lastSegment s) = some n →
        extract_person_id (some s) = Except.ok (some n)) ∧
      (∀ s : String, pyIntParse (lastSegment s) = none →
        extract_person_id (some s) = Except.error "ValueError") ∧
      (∀ s : String, extract_person_id (some s) ≠ Except.ok none) := by
  refine ⟨rfl, ?_, ?_, ?_⟩
  · intro s n h
    simp [extract_person_id, h]
  · intro s h
    simp [extract_person_id, h]
  · intro s h
    rcases hp : pyIntParse (lastSegment s) with _ | n
    · simp [extract_person_id, hp] at h
    · simp [extract_person_id, hp] at h

/-- C7 witness: the amended theorem applied to a concrete
TheyWorkForYou-style identifier. -/
theorem C7_witness :
    pyIntParse (lastSegment "uk.org.publicwhip/person/10001") = some 10001 ∧
      extract_person_id (some "uk.org.publicwhip/person/10001") =
        Except.ok (some 10001) :=
  ⟨by decide, C7_extract_person_id_amended.2.1 "uk.org.publicwhip/person/10001" 10001 (by decide)⟩

/-- C6: the claim (and the function's own docstring) says versionless
filenames are always kept, but `_filter_latest_versions` treats a
versionless filename as suffix `""`, so it is discarded whenever a
version-lettered filename shares its date: only the lettered file
survives. -/
theorem C6_filter_latest_versions_drops_versionless :
    filter_latest_versions ["debates2025-09-16.xml", "debates2025-09-16a.xml"] =
      Except.ok ["debates2025-09-16a.xml"] := by
  decide

/-- C9: an absent, unreadable, or malformed-JSON checkpoint file loads as
the empty processed-files set, and an absent, unreadable, or malformed-JSON
summary-cache file loads as the empty cache; none of the six cases
raises. -/
theorem C9_corrupt_state_loads_empty :
    load_checkpoint FileRead.absent = Except.ok [] ∧
      load_checkpoint FileRead.ioError = Except.ok [] ∧
      load_checkpoint FileRead.malformed = Except.ok [] ∧
      load_cache FileRead.absent = Except.ok (JsonVal.obj []) ∧
      load_cache FileRead.ioError = Except.ok (JsonVal.obj []) ∧
      load_cache FileRead.malformed = Except.ok (JsonVal.obj []) :=
  ⟨rfl, rfl, rfl, rfl, rfl, rfl⟩

/-! Helper lemmas about the pipeline loop. -/

lemma run_loop_processed_mono {process maxB batches processed persisted bp res}
    (h : run_loop process maxB batches processed persisted bp = Except.ok res) :
    ∀ x ∈ processed, x ∈ res.processed := by
  induction batches generalizing processed persisted bp with
  | nil =>
    intro x hx
    simp only [run_loop] at h
    cases h
    exact hx
  | cons df rest ih =>
    intro x hx
    simp only [run_loop] at h
    split at h
    · cases h; exact hx
    · split at h
      · exact ih h x hx
      · split at h
        · exact ih h x hx
        · split at h
          · exact Except.noConfusion h
          · exact ih h x (List.mem_append_left _ hx)

lemma batch_files_mem {df : List UttRow} {r : UttRow} (hr : r ∈ df) :
    r.xml_path ∈ (df.map fun r => r.xml_path).dedup := by
  rw [List.mem_dedup]
  exact List.mem_map_of_mem _ hr

lemma batch_files_src {df : List UttRow} {f : String}
    (hf : f ∈ (df.map fun r => r.xml_path).dedup) :
    ∃ r ∈ df, r.xml_path = f := by
  rw [List.mem_dedup] at hf
  simpa using hf

lemma run_loop_cons_none {process : List UttRow → Option (List UttRow)}
    {df : List UttRow} {rest : List (List UttRow)} {processed : List String}
    {persisted : List UttRow} {bp : Nat} :
    run_loop process none (df :: rest) processed persisted bp =
      (if ∀ f ∈ (df.map fun r => r.xml_path).dedup, f ∈ processed then
        run_loop process none rest processed persisted bp
      else
        if df.filter (fun r => r.xml_path ∈
            (df.map fun r => r.xml_path).dedup.filter fun f => f ∉ processed) = [] then
          run_loop process none rest processed persisted bp
        else
          match df.filter (fun r => r.xml_path ∈
              (df.map fun r => r.xml_path).dedup.filter fun f => f ∉ processed) |> process with
          | none => Except.error "batch failure"
          | some out =>
            run_loop process none rest
              (processed ++ (df.map fun r => r.xml_path).dedup.filter fun f => f ∉ processed)
              (persisted ++ out) (bp + 1)) := by
  simp [run_loop]

lemma new_row_of_not_all {df : List UttRow} {processed : List String}
    (hnall : ¬ ∀ f ∈ (df.map fun r => r.xml_path).dedup, f ∈ processed) :
    df.filter (fun r => r.xml_path ∈
      (df.map fun r => r.xml_path).dedup.filter fun f => f ∉ processed) ≠ [] := by
  push_neg at hnall
  obtain ⟨f, hfbf, hfnp⟩ := hnall
  obtain ⟨r', hr', hr'p⟩ := batch_files_src hfbf
  intro hempty
  have hmem : r' ∈ df.filter fun r =>
      r.xml_path ∈ (df.map fun r => r.xml_path).dedup.filter
        fun f => f ∉ processed := by
    rw [List.mem_filter]
    refine ⟨hr', ?_⟩
    simp only [List.mem_filter, decide_eq_true_eq]
    exact ⟨by rw [hr'p]; exact hfbf, by simp [hr'p, hfnp]⟩
  rw [hempty] at hmem
  exact absurd hmem (List.not_mem_nil r')

lemma run_loop_covers {process batches processed persisted bp res}
    (h : run_loop process none batches processed persisted bp = Except.ok res) :
    ∀ df ∈ batches, ∀ r ∈ df, r.xml_path ∈ res.processed := by
  induction batches generalizing processed persisted bp with
  | nil => intro df hdf; exact absurd hdf (List.not_mem_nil df)
  | cons df0 rest ih =>
    intro df hdf r hr
    rw [run_loop_cons_none] at h
    rcases List.mem_cons.mp hdf with hdf0 | hdfrest
    · subst hdf0
      split at h
      · rename_i hall
        exact run_loop_processed_mono h _ (hall _ (batch_files_mem hr))
      · rename_i hnall
        split at h
        · exact absurd (by assumption) (new_row_of_not_all hnall)
        · split at h
          · exact Except.noConfusion h
          · by_cases hp : r.xml_path ∈ processed
            · exact run_loop_processed_mono h _ (List.mem_append_left _ hp)
            · refine run_loop_processed_mono h _ (List.mem_append_right _ ?_)
              rw [List.mem_filter]
              exact ⟨batch_files_mem hr, by simpa using hp⟩
    · split at h
      · exact ih h df hdfrest r hr
      · split at h
        · exact ih h df hdfrest r hr
        · split at h
          · exact Except.noConfusion h
          · exact ih h df hdfrest r hr

lemma run_loop_skip_all {process maxB batches processed persisted bp}
    (hall : ∀ df ∈ batches, ∀ r ∈ df, r.xml_path ∈ processed) :
    run_loop process maxB batches processed persisted bp =
      Except.ok ⟨processed, persisted, bp⟩ := by
  induction batches with
  | nil => rfl
  | cons df rest ih =>
    simp only [run_loop]
    split
    · rfl
    · rw [if_pos, ih fun d hd => hall d (List.mem_cons_of_mem _ hd)]
      intro f hf
      obtain ⟨r, hr, hrp⟩ := batch_files_src hf
      rw [← hrp]
      exact hall df (List.mem_cons_self _ _) r hr

/-- C4: a second `DebatePipeline.run` (no reset, unlimited batches) after a
completed run over the same input set is a no-op: every batch is entirely
covered by the checkpoint and skipped, so zero documents are processed,
nothing is persisted, and the checkpoint is unchanged. -/
theorem C4_second_run_noop (files : List String)
    (parse : String → Option (List UttRow)) (batch_size : Nat)
    (process : List UttRow → Option (List UttRow)) (processed₀ : List String)
    (res : RunResult)
    (h : run files parse batch_size none process processed₀ = Except.ok res) :
    run files parse batch_size none process res.processed =
      Except.ok ⟨res.processed, [], 0⟩ :=
  run_loop_skip_all (run_loop_covers h)

/-- C4 witness: a two-file corpus in one-file batches; the first run
persists both files' rows, the second run persists nothing. -/
theorem C4_witness :
    run ["f1", "f2"] (fun f => some [⟨f, 0⟩]) 1 none some [] =
        Except.ok ⟨["f1", "f2"], [⟨"f1", 0⟩, ⟨"f2", 0⟩], 2⟩ ∧
      run ["f1", "f2"] (fun f => some [⟨f, 0⟩]) 1 none some ["f1", "f2"] =
        Except.ok ⟨["f1", "f2"], [], 0⟩ :=
  ⟨by decide,
    C4_second_run_noop ["f1", "f2"] (fun f => some [⟨f, 0⟩]) 1 some []
      ⟨["f1", "f2"], [⟨"f1", 0⟩, ⟨"f2", 0⟩], 2⟩ (by decide)⟩

lemma iter_aux_length (loadB : Nat → List UttRow) :
    ∀ fuel start k, loadB (start + k) = [] →
      (iter_batches_aux loadB fuel start).length ≤ k := by
  intro fuel
  induction fuel with
  | zero => intro start k _; simp [iter_batches_aux]
  | succ n ih =>
    intro start k h
    simp only [iter_batches_aux]
    split
    · simp
    · rename_i hne
      cases k with
      | zero => rw [Nat.add_zero] at h; exact absurd h hne
      | succ k' =>
        have hk := ih (start + 1) k' (by rw [show start + 1 + k' = start + (k' + 1) by omega]; exact h)
        simp only [List.length_cons]
        omega

lemma iter_aux_mem (loadB : Nat → List UttRow) :
    ∀ fuel start df, df ∈ iter_batches_aux loadB fuel start →
      ∃ j, df = loadB (start + j) ∧ j < (iter_batches_aux loadB fuel start).length := by
  intro fuel
  induction fuel with
  | zero => intro start df h; simp [iter_batches_aux] at h
  | succ n ih =>
    intro start df h
    simp only [iter_batches_aux] at h ⊢
    split at h
    · exact absurd h (List.not_mem_nil df)
    · rename_i hne
      rw [if_neg hne]
      rcases List.mem_cons.mp h with heq | hrest

      · exact ⟨0, by simpa using heq, by simp⟩
      · obtain ⟨j, hdf, hlt⟩ := ih (start + 1) df hrest
        refine ⟨j + 1, by rw [show start + (j + 1) = start + 1 + j by omega]; exact hdf, ?_⟩
        simp only [List.length_cons]
        omega

lemma load_batch_rows {files : List String} {parse : String → Option (List UttRow)}
    {j bs : Nat} {r : UttRow} (h : r ∈ load_batch files parse j bs) :
    ∃ f ∈ (files.drop (j * bs)).take bs, r ∈ (parse f).getD [] := by
  simp only [load_batch] at h
  split at h
  · exact absurd h (List.not_mem_nil r)
  · split at h
    · exact absurd h (List.not_mem_nil r)
    · obtain ⟨rows, hrows, hr⟩ := List.mem_flatten.mp h
      obtain ⟨f, hf, hparse⟩ := List.mem_filterMap.mp hrows
      exact ⟨f, hf, by rw [hparse]; exact hr⟩

lemma run_loop_total {process : List UttRow → Option (List UttRow)}
    (hproc : ∀ l, process l ≠ none) (maxB : Option Nat) :
    ∀ batches processed persisted bp, ∃ res,
      run_loop process maxB batches processed persisted bp = Except.ok res ∧
        ∀ f ∈ res.processed, f ∈ processed ∨ ∃ df ∈ batches, ∃ r ∈ df, r.xml_path = f := by
  intro batches
  induction batches with
  | nil => exact fun processed persisted bp => ⟨⟨processed, persisted, bp⟩, rfl, fun f hf => Or.inl hf⟩
  | cons df rest ih =>
    intro processed persisted bp
    simp only [run_loop]
    split
    · exact ⟨⟨processed, persisted, bp⟩, rfl, fun f hf => Or.inl hf⟩
    · split
      · obtain ⟨res, h1, h2⟩ := ih processed persisted bp
        refine ⟨res, h1, fun f hf => ?_⟩
        rcases h2 f hf with hp | ⟨d, hd, hrest⟩
        · exact Or.inl hp
        · exact Or.inr ⟨d, List.mem_cons_of_mem _ hd, hrest⟩
      · split
        · obtain ⟨res, h1, h2⟩ := ih processed persisted bp
          refine ⟨res, h1, fun f hf => ?_⟩
          rcases h2 f hf with hp | ⟨d, hd, hrest⟩
          · exact Or.inl hp
          · exact Or.inr ⟨d, List.mem_cons_of_mem _ hd, hrest⟩
        · rcases hpd : process (df.filter fun r => r.xml_path ∈
              (df.map fun r => r.xml_path).dedup.filter fun f => f ∉ processed) with _ | out
          · exact absurd hpd (hproc _)
          · simp only [hpd]
            obtain ⟨res, h1, h2⟩ := ih (processed ++
              (df.map fun r => r.xml_path).dedup.filter fun f => f ∉ processed)
              (persisted ++ out) (bp + 1)
            refine ⟨res, h1, fun f hf => ?_⟩
            rcases h2 f hf with hp | ⟨d, hd, hrest⟩
            · rcases List.mem_append.mp hp with hl | hr
              · exact Or.inl hl
              · obtain ⟨r, hrdf, hrp⟩ := batch_files_src (List.mem_filter.mp hr).1
                exact Or.inr ⟨df, List.mem_cons_self _ _, r, hrdf, hrp⟩
            · exact Or.inr ⟨d, List.mem_cons_of_mem _ hd, hrest⟩

/-- C10: when every document of some batch fails to parse, that batch's
loaded frame is empty, so batch iteration stops there: at most `b` batches
are yielded, the run completes without error (given every processed batch
succeeds), and nothing beyond the first `b * batch_size` files can enter
the checkpoint. -/
theorem C10_all_fail_batch_stops_run (files : List String)
    (parse : String → Option (List UttRow)) (batch_size b : Nat)
    (process : List UttRow → Option (List UttRow)) (processed₀ : List String)
    (_hslice : (files.drop (b * batch_size)).take batch_size ≠ [])
    (hfail : ∀ f ∈ (files.drop (b * batch_size)).take batch_size, parse f = none)
    (hpath : ∀ f ∈ files, ∀ r ∈ (parse f).getD [], r.xml_path = f)
    (hproc : ∀ l, process l ≠ none) :
    (iter_batches files parse batch_size).length ≤ b ∧
      ∃ res, run files parse batch_size none process processed₀ = Except.ok res ∧
        ∀ f ∈ res.processed, f ∈ processed₀ ∨ f ∈ files.take (b * batch_size) := by
  have hfm : ((files.drop (b * batch_size)).take batch_size).filterMap parse = [] :=
    List.filterMap_eq_nil_iff.mpr hfail
  have hlb : load_batch files parse b batch_size = [] := by
    simp [load_batch, hfm]
  have hlen : (iter_batches files parse batch_size).length ≤ b := by
    have := iter_aux_length (load_batch files parse · batch_size)
      (files.length + 1) 0 b (by simpa using hlb)
    simpa [iter_batches] using this
  refine ⟨hlen, ?_⟩
  obtain ⟨res, h1, h2⟩ := run_loop_total hproc none
    (iter_batches files parse batch_size) processed₀ [] 0
  refine ⟨res, h1, fun f hf => ?_⟩
  rcases h2 f hf with hp | ⟨df, hdf, r, hrdf, hrp⟩
  · exact Or.inl hp
  · obtain ⟨j, hdfeq, hjlt⟩ := iter_aux_mem (load_batch files parse · batch_size)
      (files.length + 1) 0 df (by simpa [iter_batches] using hdf)
    have hjb : j < b := lt_of_lt_of_le (by simpa [iter_batches] using hjlt) hlen
    rw [hdfeq] at hrdf
    obtain ⟨f', hf'slice, hrparse⟩ := load_batch_rows (by simpa using hrdf)
    have hf'files : f' ∈ files := List.drop_subset _ _ (List.take_subset _ _ hf'slice)
    have hxml : r.xml_path = f' := hpath f' hf'files r hrparse
    have hmem : f' ∈ files.take (j * batch_size + batch_size) := by
      rw [List.take_add]
      exact List.mem_append_right _ hf'slice
    have hsub : files.take (j * batch_size + batch_size) ⊆ files.take (b * batch_size) := by
      refine (List.take_prefix_take_left files ?_).subset
      calc j * batch_size + batch_size = (j + 1) * batch_size := by ring
        _ ≤ b * batch_size := Nat.mul_le_mul_right _ hjb
    exact Or.inr (by rw [← hrp, hxml]; exact hsub hmem)

/-- C10 witness: a two-file corpus in one-file batches where the second
file fails to parse; iteration stops after the first batch and only the
first file can be checkpointed. -/
theorem C10_witness :
    (iter_batches ["f1", "f2"] (fun f => if f = "f2" then none else some [⟨f, 0⟩]) 1).length ≤ 1 ∧
      ∃ res, run ["f1", "f2"] (fun f => if f = "f2" then none else some [⟨f, 0⟩]) 1
          none some [] = Except.ok res ∧
        ∀ f ∈ res.processed, f ∈ ([] : List String) ∨ f ∈ ["f1", "f2"].take 1 :=
  C10_all_fail_batch_stops_run ["f1", "f2"]
    (fun f => if f = "f2" then none else some [⟨f, 0⟩]) 1 1 some []
    (by decide) (by decide) (by decide) (fun _ h => Option.noConfusion h)

lemma parseGo_ok (xmlPath date : String) :
    ∀ (elems : List DebElem) (c : ParseContext),
      ∃ rs, parseGo xmlPath (Except.ok date) c elems = Except.ok rs := by
  intro elems
  induction elems with
  | nil => exact fun c => ⟨[], rfl⟩
  | cons e rest ih =>
    intro c
    cases e with
    | speech a =>
      obtain ⟨rs, h⟩ := ih (speechContextUpdate c a)
      exact ⟨mkRecord xmlPath date (speechContextUpdate c a) a :: rs,
        by simp [parseGo, h, Except.map]⟩
    | oralHeading t => exact ih _
    | majorHeading t => exact ih _
    | minorHeading t => exact ih _
    | other => exact ih _

/-- C5: a `minor-heading` (topic heading) element followed immediately by a
`Start Statement` speech emits a record whose main-question and
context-question fields (text, id, speaker, type, and the original-text
copies) are all null; and every heading element resets the statement and
question context slots to null. -/
theorem C5_heading_then_statement_null_context :
    (∀ (c : ParseContext) (t : Option String) (a : SpeechAttrs)
        (xmlPath date : String) (rest : List DebElem),
        speechType a = "Start Statement" →
        ∃ tail, ∃ r : UttRecord (Option String),
          parseGo xmlPath (Except.ok date) c
              (DebElem.minorHeading t :: DebElem.speech a :: rest) =
            Except.ok (r :: tail) ∧
          r.question_text = none ∧ r.question_id = none ∧
          r.question_speaker = none ∧ r.context_question_text = none ∧
          r.context_question_id = none ∧ r.context_question_speaker = none ∧
          r.context_question_type = none ∧ r.original_question_text = none ∧
          r.original_context_question_text = none) ∧
    ∀ (c : ParseContext) (e : DebElem), isHeading e = true →
      (stepContext c e).current_statement = none ∧
      (stepContext c e).current_statement_id = none ∧
      (stepContext c e).current_statement_speaker = none ∧
      (stepContext c e).current_question = none ∧
      (stepContext c e).current_question_id = none ∧
      (stepContext c e).current_question_speaker = none ∧
      (stepContext c e).current_context_question = none ∧
      (stepContext c e).current_context_question_id = none ∧
      (stepContext c e).current_context_question_speaker = none ∧
      (stepContext c e).current_context_question_type = none := by
  constructor
  · intro c t a xmlPath date rest ha
    obtain ⟨tail, htail⟩ :=
      parseGo_ok xmlPath date rest
        (speechContextUpdate (stepContext c (DebElem.minorHeading t)) a)
    refine ⟨tail,
      mkRecord xmlPath date
        (speechContextUpdate (stepContext c (DebElem.minorHeading t)) a) a,
      ?_, ?_⟩
    · simp [parseGo, htail, Except.map]
    · simp [mkRecord, speechContextUpdate, ha]
  · intro c e he
    cases e with
    | oralHeading t => simp [stepContext, resetAllContext]
    | majorHeading t => simp [stepContext, resetAllContext]
    | minorHeading t => simp [stepContext, resetAllContext]
    | speech a => simp [isHeading] at he
    | other => simp [isHeading] at he

/-- C5 witness: a fully populated context frame, a topic heading, then a
statement speech; the emitted record's question-context fields are null. -/
theorem C5_witness :
    ∃ tail, ∃ r : UttRecord (Option String),
      parseGo "debates2025-09-16a.xml" (Except.ok "2025-09-16")
          ⟨some "sess", some "dept", some "topic", some "st", some "stid",
            some "stsp", some "q", some "qid", some "qsp", some "cq",
            some "cqid", some "cqsp", some "supplementary"⟩
          [DebElem.minorHeading (some "New Topic"),
            DebElem.speech ⟨some "sp1", some "Alice",
              some "uk.org.publicwhip/person/1", none, some "Start Statement",
              none, none, none, none, none, ["Hello."]⟩] =
        Except.ok (r :: tail) ∧
      r.question_text = none ∧ r.question_id = none ∧
      r.question_speaker = none ∧ r.context_question_text = none ∧
      r.context_question_id = none ∧ r.context_question_speaker = none ∧
      r.context_question_type = none ∧ r.original_question_text = none ∧
      r.original_context_question_text = none :=
  C5_heading_then_statement_null_context.1
    ⟨some "sess", some "dept", some "topic", some "st", some "stid",
      some "stsp", some "q", some "qid", some "qsp", some "cq",
      some "cqid", some "cqsp", some "supplementary"⟩
    (some "New Topic")
    ⟨some "sp1", some "Alice", some "uk.org.publicwhip/person/1", none,
      some "Start Statement", none, none, none, none, none, ["Hello."]⟩
    "debates2025-09-16a.xml" "2025-09-16" [] rfl

lemma buildChunksGo_ne_nil (ct : String → Nat) (effSize : Int) (overlap : Nat) :
    ∀ (sents cur : List String) (tok : Nat), sents ≠ [] ∨ cur ≠ [] →
      buildChunksGo ct effSize overlap sents cur tok ≠ [] := by
  intro sents
  induction sents with
  | nil =>
    intro cur tok h
    rcases h with h | h
    · exact absurd rfl h
    · simp [buildChunksGo, h]
  | cons s rest ih =>
    intro cur tok h
    simp only [buildChunksGo]
    split
    · exact List.cons_ne_nil _ _
    · exact ih _ _ (Or.inr (by simp))

lemma create_chunks_ne_nil (ct : String → Nat) (content original : String)
    (effSize : Int) (overlap : Nat) :
    create_chunks ct content original effSize overlap ≠ [] := by
  unfold create_chunks
  split
  · exact List.cons_ne_nil _ _
  · rename_i hs
    simp only [withOffsets, ne_eq, List.map_eq_nil_iff, List.enum_eq_nil]
    exact buildChunksGo_ne_nil ct effSize overlap _ [] 0 (Or.inl hs)

lemma withOffsets_getElem (L : Nat) (texts : List String) (i : Nat) :
    (withOffsets L texts)[i]? = texts[i]?.map fun t =>
      (⟨t, (calcOffsets texts.length L i).1, (calcOffsets texts.length L i).2⟩ :
        ChunkInfo) := by
  cases h : texts[i]? with
  | none => simp [withOffsets, List.getElem?_map, List.getElem?_enum, h]
  | some t => simp [withOffsets, List.getElem?_map, List.getElem?_enum, h]

lemma calcOffsets_spec (n L i : Nat) (hin : i < n) :
    (calcOffsets n L i).1 = i * L / n ∧ (calcOffsets n L i).2 = (i + 1) * L / n := by
  constructor
  · simp only [calcOffsets]
    split
    · rfl
    · rename_i hnot
      have hn1 : n = 1 := by omega
      have hi0 : i = 0 := by omega
      simp [hn1, hi0]
  · simp only [calcOffsets]
    split
    · rfl
    · rename_i hnot
      have hieq : i + 1 = n := by omega
      rw [hieq, Nat.mul_div_cancel_left L (by omega : 0 < n)]

lemma create_chunks_spec (ct : String → Nat) (content original : String)
    (effSize : Int) (overlap : Nat) (i : Nat) (c : ChunkInfo)
    (h : (create_chunks ct content original effSize overlap)[i]? = some c) :
    c.start_char =
        i * original.length / (create_chunks ct content original effSize overlap).length ∧
      c.end_char =
        (i + 1) * original.length /
          (create_chunks ct content original effSize overlap).length := by
  by_cases hsent : split_sentences content = []
  · simp only [create_chunks, if_pos hsent] at h ⊢
    cases i with
    | zero =>
      simp only [List.getElem?_cons_zero, Option.some.injEq] at h
      subst h
      simp
    | succ k => simp at h
  · simp only [create_chunks, if_neg hsent] at h ⊢
    rw [withOffsets_getElem] at h
    cases ht : ((buildChunksGo ct effSize overlap (split_sentences content) [] 0).map
        (pyJoin " "))[i]? with
    | none => rw [ht] at h; simp at h
    | some t =>
      rw [ht] at h
      simp only [Option.map_some', Option.some.injEq] at h
      have hin : i < ((buildChunksGo ct effSize overlap (split_sentences content) [] 0).map
          (pyJoin " ")).length := (List.getElem?_eq_some.mp ht).1
      obtain ⟨h1, h2⟩ := calcOffsets_spec
        ((buildChunksGo ct effSize overlap (split_sentences content) [] 0).map
          (pyJoin " ")).length original.length i hin
      have hlen : (withOffsets original.length
          ((buildChunksGo ct effSize overlap (split_sentences content) [] 0).map
            (pyJoin " "))).length =
          ((buildChunksGo ct effSize overlap (split_sentences content) [] 0).map
            (pyJoin " ")).length := by
        simp [withOffsets]
      rw [hlen]
      subst h
      exact ⟨h1, h2⟩

/-- C3: an utterance whose formatted token count fits the maximum sequence
length yields exactly one chunk spanning `[0, len(original))`; otherwise
chunk `i` of the `n` emitted chunks has `start_char = i·L/n` and
`end_char = (i+1)·L/n` (integer division), the last chunk ends exactly at
`L`, and both offsets are monotonically non-decreasing in the chunk
index. -/
theorem C3_proportional_chunk_offsets (ct : String → Nat)
    (max_seq_length chunk_size overlap : Nat) (utterance original : String)
    (tokenCount : Nat) :
    (tokenCount ≤ max_seq_length →
      transform_row ct max_seq_length chunk_size overlap utterance original tokenCount =
        [⟨0, original, utterance, 0, original.length⟩]) ∧
    (¬ tokenCount ≤ max_seq_length →
      ∀ out, out = transform_row ct max_seq_length chunk_size overlap utterance original
          tokenCount →
        out ≠ [] ∧
        (∀ i c, out[i]? = some c →
          c.chunk_index = i ∧
          c.chunk_start_char = i * original.length / out.length ∧
          c.chunk_end_char = (i + 1) * original.length / out.length ∧
          (i = out.length - 1 → c.chunk_end_char = original.length)) ∧
        ∀ i j : Nat, ∀ ci cj : ChunkRow, out[i]? = some ci → out[j]? = some cj →
          i ≤ j →
          ci.chunk_start_char ≤ cj.chunk_start_char ∧
          ci.chunk_end_char ≤ cj.chunk_end_char ∧
          ci.chunk_start_char ≤ ci.chunk_end_char) := by
  constructor
  · intro h
    simp [transform_row, h]
  · intro h out hout
    have hform : out = ((create_chunks ct (split_context utterance).2 original
        (min (chunk_size : Int)
          ((max_seq_length : Int) - count_tokens ct (split_context utterance).1 - 10))
        overlap).enum.map
      fun ic =>
        (⟨ic.1, ic.2.text, format_chunk_embedding ic.2.text (split_context utterance).1,
          ic.2.start_char, ic.2.end_char⟩ : ChunkRow)) := by
      rw [hout]; simp [transform_row, h]
    have hlen : out.length = (create_chunks ct (split_context utterance).2 original
        (min (chunk_size : Int)
          ((max_seq_length : Int) - count_tokens ct (split_context utterance).1 - 10))
        overlap).length := by
      rw [hform]; simp
    have hget : ∀ i c, out[i]? = some c →
        c.chunk_index = i ∧
        c.chunk_start_char = i * original.length / out.length ∧
        c.chunk_end_char = (i + 1) * original.length / out.length := by
      intro i c hc
      rw [hform, List.getElem?_map, List.getElem?_enum] at hc
      cases hci : (create_chunks ct (split_context utterance).2 original
          (min (chunk_size : Int)
            ((max_seq_length : Int) - count_tokens ct (split_context utterance).1 - 10))
          overlap)[i]? with
      | none => rw [hci] at hc; simp at hc
      | some cinfo =>
        rw [hci] at hc
        simp only [Option.map_some', Option.some.injEq] at hc
        obtain ⟨h1, h2⟩ := create_chunks_spec ct (split_context utterance).2 original
          (min (chunk_size : Int)
            ((max_seq_length : Int) - count_tokens ct (split_context utterance).1 - 10))
          overlap i cinfo hci
        subst hc
        exact ⟨rfl, by rw [hlen]; exact h1, by rw [hlen]; exact h2⟩
    refine ⟨?_, ?_, ?_⟩
    · rw [hform]
      simp only [ne_eq, List.map_eq_nil_iff, List.enum_eq_nil]
      exact create_chunks_ne_nil ct (split_context utterance).2 original
        (min (chunk_size : Int)
          ((max_seq_length : Int) - count_tokens ct (split_context utterance).1 - 10))
        overlap
    · intro i c hc
      obtain ⟨h1, h2, h3⟩ := hget i c hc
      refine ⟨h1, h2, h3, ?_⟩
      intro hil
      rw [h3]
      have hpos : i < out.length := by
        have := List.getElem?_eq_some.mp hc
        exact this.1
      have : i + 1 = out.length := by omega
      rw [this, Nat.mul_div_cancel_left original.length (by omega : 0 < out.length)]
    · intro i j ci cj hci hcj hij
      obtain ⟨_, hsi, hei⟩ := hget i ci hci
      obtain ⟨_, hsj, hej⟩ := hget j cj hcj
      refine ⟨?_, ?_, ?_⟩
      · rw [hsi, hsj]
        exact Nat.div_le_div_right (Nat.mul_le_mul_right _ hij)
      · rw [hei, hej]
        exact Nat.div_le_div_right (Nat.mul_le_mul_right _ (by omega))
      · rw [hsi, hei]
        exact Nat.div_le_div_right (Nat.mul_le_mul_right _ (by omega))

/-- C3 witness: a short utterance yields one whole-text chunk; a
three-chunk utterance over a ten-character original has its last chunk
ending exactly at 10 (with offsets 0–3, 3–6, 6–10 by integer division). -/
theorem C3_witness :
    transform_row (fun s => s.toList.length) 5 3 1 "Hi there." "Hi there." 4 =
        [⟨0, "Hi there.", "Hi there.", 0, 9⟩] ∧
      transform_row (fun s => s.toList.length) 5 3 1 "Aa. Bb. Cc." "0123456789" 30 ≠ [] ∧
      ∃ c : ChunkRow,
        (transform_row (fun s => s.toList.length) 5 3 1 "Aa. Bb. Cc." "0123456789" 30)[2]? =
          some c ∧ c.chunk_end_char = 10 := by
  refine ⟨(C3_proportional_chunk_offsets (fun s => s.toList.length) 5 3 1
    "Hi there." "Hi there." 4).1 (by decide), ?_, ?_⟩
  · exact ((C3_proportional_chunk_offsets (fun s => s.toList.length) 5 3 1
      "Aa. Bb. Cc." "0123456789" 30).2 (by decide) _ rfl).1
  · have hc : (transform_row (fun s => s.toList.length) 5 3 1 "Aa. Bb. Cc."
        "0123456789" 30)[2]? = some ⟨2, "Cc.", "Cc.", 6, 10⟩ := by decide
    refine ⟨⟨2, "Cc.", "Cc.", 6, 10⟩, hc, ?_⟩
    exact (((C3_proportional_chunk_offsets (fun s => s.toList.length) 5 3 1
      "Aa. Bb. Cc." "0123456789" 30).2 (by decide) _ rfl).2.1 2 _ hc).2.2.2 (by decide)

/-! Helper lemmas about the retrieval engine. -/

lemma qmin?_mem {l : List ℚ} {a : ℚ} (h : l.min? = some a) : a ∈ l :=
  List.min?_mem (fun p q => min_choice p q) h

lemma qmin?_le {l : List ℚ} {a b : ℚ} (h : l.min? = some a) (hb : b ∈ l) :
    a ≤ b := by
  haveI : Std.Antisymm (fun x1 x2 : ℚ => x1 ≤ x2) :=
    ⟨fun h1 h2 => le_antisymm h1 h2⟩
  rw [List.min?_eq_some_iff] at h
  · exact h.2 b hb
  · exact fun p => le_refl p
  · exact fun p q => min_choice p q
  · exact fun p q c => le_min_iff

lemma lookup_mem {l : List (Nat × ℚ)} {u : Nat} {s : ℚ}
    (h : l.lookup u = some s) : (u, s) ∈ l := by
  induction l with
  | nil => simp [List.lookup] at h
  | cons p rest ih =>
    obtain ⟨a, b⟩ := p
    rw [List.lookup] at h
    split at h
    · rename_i hbeq
      cases h
      have hp : u = a := by simpa using hbeq
      subst hp
      exact List.mem_cons_self _ _
    · exact List.mem_cons_of_mem _ (ih h)

lemma groupMin_mem {rows : List (Nat × ℚ)} {u : Nat} {s : ℚ}
    (h : (u, s) ∈ groupMin rows) :
    ((rows.filter fun r => r.1 = u).map Prod.snd).min? = some s := by
  simp only [groupMin, List.mem_filterMap] at h
  obtain ⟨u', _, hmap⟩ := h
  cases hm : ((rows.filter fun r => r.1 = u').map Prod.snd).min? with
  | none => rw [hm] at hmap; simp at hmap
  | some s' =>
    rw [hm] at hmap
    simp only [Option.map_some', Option.some.injEq, Prod.mk.injEq] at hmap
    obtain ⟨h1, h2⟩ := hmap
    subst h1
    subst h2
    exact hm

lemma joinBest_mem {scored : List (Nat × ℚ)} {utts : List Utt} {us : Utt × ℚ}
    (h : us ∈ joinBest scored utts) :
    us.1 ∈ utts ∧ (groupMin scored).lookup us.1.id = some us.2 := by
  simp only [joinBest, List.mem_filterMap] at h
  obtain ⟨u, hu, hmap⟩ := h
  cases hl : (groupMin scored).lookup u.id with
  | none => rw [hl] at hmap; simp at hmap
  | some s =>
    rw [hl] at hmap
    simp only [Option.map_some', Option.some.injEq] at hmap
    rw [← hmap]
    exact ⟨hu, hl⟩

lemma joinBest_ids_sublist (scored : List (Nat × ℚ)) (utts : List Utt) :
    List.Sublist ((joinBest scored utts).map fun us => us.1.id)
      (utts.map Utt.id) := by
  induction utts with
  | nil => simp [joinBest]
  | cons u rest ih =>
    rw [joinBest, List.filterMap_cons]
    cases hl : (groupMin scored).lookup u.id with
    | none =>
      simp only [Option.map_none', List.map_cons]
      exact List.Sublist.cons _ ih
    | some s =>
      simp only [Option.map_some', List.map_cons]
      exact List.Sublist.cons₂ _ ih

lemma mem_of_chunkSearchScored {scored : List (Nat × ℚ)} {utts : List Utt}
    {party : Option String} {person : Option Int}
    {dateFrom dateTo : Option String} {minScore : Option ℚ} {top_k : Nat}
    {us : Utt × ℚ}
    (h : us ∈ chunkSearchScored scored utts party person dateFrom dateTo
      minScore top_k) :
    us ∈ applyCut minScore ((joinBest scored utts).filter fun x =>
      passesFilters party person dateFrom dateTo x.1) := by
  have h1 := List.mem_of_mem_take h
  exact (List.perm_insertionSort (fun a b : Utt × ℚ => a.2 ≤ b.2) _).mem_iff.mp h1

lemma applyCut_subset {minScore : Option ℚ} {l : List (Utt × ℚ)} {us : Utt × ℚ}
    (h : us ∈ applyCut minScore l) : us ∈ l := by
  cases minScore with
  | none => exact h
  | some m => exact (List.mem_filter.mp h).1

/-- C1: for any scored chunk population (vector or lexical mode), any
filter combination, any cutoff and limit: the results have pairwise
distinct parent-utterance ids, each result carries the minimum score over
its parent's scored chunks, the result list is ordered ascending by that
best score, it holds at most `top_k` entries, and the returned `Utterance`
list is its parent projection. -/
theorem C1_dedup_min_order_limit (scored : List (Nat × ℚ)) (utts : List Utt)
    (party : Option String) (person : Option Int)
    (dateFrom dateTo : Option String) (minScore : Option ℚ) (top_k : Nat)
    (hids : (utts.map Utt.id).Nodup) :
    ∀ out, out = chunkSearchScored scored utts party person dateFrom dateTo
        minScore top_k →
      (out.map fun us => us.1.id).Nodup ∧
      (∀ us ∈ out,
        ((scored.filter fun r => r.1 = us.1.id).map Prod.snd).min? = some us.2 ∧
        us.2 ∈ (scored.filter fun r => r.1 = us.1.id).map Prod.snd ∧
        ∀ s' ∈ (scored.filter fun r => r.1 = us.1.id).map Prod.snd, us.2 ≤ s') ∧
      List.Pairwise (fun a b : Utt × ℚ => a.2 ≤ b.2) out ∧
      out.length ≤ top_k ∧
      chunk_search scored utts party person dateFrom dateTo minScore top_k =
        out.map Prod.fst := by
  intro out hout
  haveI : IsTotal (Utt × ℚ) (fun a b => a.2 ≤ b.2) := ⟨fun a b => le_total a.2 b.2⟩
  haveI : IsTrans (Utt × ℚ) (fun a b => a.2 ≤ b.2) := ⟨fun a b c => le_trans⟩
  refine ⟨?_, ?_, ?_, ?_, ?_⟩
  · -- distinct parent ids
    have hjn : ((joinBest scored utts).map fun us => us.1.id).Nodup :=
      hids.sublist (joinBest_ids_sublist scored utts)
    have hcut : List.Sublist
        ((applyCut minScore ((joinBest scored utts).filter fun x =>
          passesFilters party person dateFrom dateTo x.1)).map fun us => us.1.id)
        ((joinBest scored utts).map fun us => us.1.id) := by
      refine List.Sublist.map _ ?_
      have h1 : List.Sublist ((joinBest scored utts).filter fun x =>
          passesFilters party person dateFrom dateTo x.1) (joinBest scored utts) :=
        List.filter_sublist _
      cases minScore with
      | none => exact h1
      | some m => exact (List.filter_sublist _).trans h1
    have hsortnd : ((applyCut minScore ((joinBest scored utts).filter fun x =>
        passesFilters party person dateFrom dateTo x.1)).insertionSort
          (fun a b : Utt × ℚ => a.2 ≤ b.2)).map (fun us => us.1.id) |>.Nodup := by
      refine (List.Perm.nodup_iff ?_).mpr (hjn.sublist hcut)
      exact (List.perm_insertionSort _ _).map _
    rw [hout]
    exact hsortnd.sublist (List.Sublist.map _ (List.take_sublist _ _))
  · -- best-score representation
    intro us hus
    rw [hout] at hus
    have hcut := mem_of_chunkSearchScored hus
    have hjb := (List.mem_filter.mp (applyCut_subset hcut)).1
    have hlook := (joinBest_mem hjb).2
    have hmin := groupMin_mem (lookup_mem hlook)
    exact ⟨hmin, qmin?_mem hmin, fun s' hs' => qmin?_le hmin hs'⟩
  · -- ascending order
    rw [hout]
    exact (List.sorted_insertionSort _ _).sublist (List.take_sublist _ _)
  · rw [hout]
    exact List.length_take_le _ _
  · rw [hout]
    rfl

/-- C1 witness: two chunks of utterance 1 (scores 5 and 3) and one chunk
of utterance 2 (score 4), no filters: each parent appears once with its
best score, ascending. -/
theorem C1_witness :
    ((chunkSearchScored [(1, 5), (1, 3), (2, 4)]
        [⟨1, some "Labour", some 10, "2020-01-01"⟩, ⟨2, none, none, "2020-01-02"⟩]
        none none none none none 10).map fun us => us.1.id).Nodup ∧
      List.Pairwise (fun a b : Utt × ℚ => a.2 ≤ b.2)
        (chunkSearchScored [(1, 5), (1, 3), (2, 4)]
          [⟨1, some "Labour", some 10, "2020-01-01"⟩, ⟨2, none, none, "2020-01-02"⟩]
          none none none none none 10) := by
  have h := C1_dedup_min_order_limit [(1, 5), (1, 3), (2, 4)]
    [⟨1, some "Labour", some 10, "2020-01-01"⟩, ⟨2, none, none, "2020-01-02"⟩]
    none none none none none 10 (by decide) _ rfl
  exact ⟨h.1, h.2.2.1⟩

lemma chunkSearchScored_cut_le {scored : List (Nat × ℚ)} {utts : List Utt}
    {party : Option String} {person : Option Int}
    {dateFrom dateTo : Option String} {m : ℚ} {top_k : Nat} {us : Utt × ℚ}
    (h : us ∈ chunkSearchScored scored utts party person dateFrom dateTo
      (some m) top_k) : us.2 ≤ m := by
  have hcut := mem_of_chunkSearchScored h
  simpa using (List.mem_filter.mp hcut).2

/-- C2: in vector mode, with a minimum-similarity threshold `s` in effect
(passed per call, or else configured as the default), every returned
result's best scored distance is at most `−s`; with no threshold from
either source, the query carries no score cutoff at all. -/
theorem C2_min_similarity_threshold (chunks : List UChunk) (embs : List EmbRow)
    (distScore : EmbRow → ℚ) (utts : List Utt) (party : Option String)
    (person : Option Int) (dateFrom dateTo : Option String)
    (msim dflt : Option ℚ) (top_k : Nat) :
    (∀ s : ℚ, msim = some s ∨ (msim = none ∧ dflt = some s) →
      ∀ us ∈ vector_search chunks embs distScore utts party person dateFrom
          dateTo msim dflt top_k,
        us.2 ≤ -s) ∧
    (msim = none → dflt = none →
      vector_search chunks embs distScore utts party person dateFrom dateTo
          msim dflt top_k =
        chunkSearchScored (vectorScored chunks embs distScore) utts party
          person dateFrom dateTo none top_k) := by
  constructor
  · intro s hs us hus
    rcases hs with hs | ⟨hs1, hs2⟩
    · simp only [vector_search, hs, Option.map_some'] at hus
      exact chunkSearchScored_cut_le hus
    · simp only [vector_search, hs1, hs2, Option.map_some'] at hus
      exact chunkSearchScored_cut_le hus
  · intro h1 h2
    simp only [vector_search, h1, h2, Option.map_none']

/-- C2 witness: one chunk at distance −0.9 passes a 0.5 threshold (score
at most −0.5); with no threshold anywhere the call is the uncut query. -/
theorem C2_witness :
    (∀ us ∈ vector_search [⟨7, 1⟩] [⟨7, 0⟩] (fun _ => -(9 : ℚ)/10)
        [⟨1, none, none, "2020-01-01"⟩] none none none none (some (1/2)) none 10,
      us.2 ≤ -(1/2 : ℚ)) ∧
      vector_search [⟨7, 1⟩] [⟨7, 0⟩] (fun _ => -(9 : ℚ)/10)
          [⟨1, none, none, "2020-01-01"⟩] none none none none none none 10 =
        chunkSearchScored (vectorScored [⟨7, 1⟩] [⟨7, 0⟩] (fun _ => -(9 : ℚ)/10))
          [⟨1, none, none, "2020-01-01"⟩] none none none none none 10 :=
  ⟨(C2_min_similarity_threshold [⟨7, 1⟩] [⟨7, 0⟩] (fun _ => -(9 : ℚ)/10)
      [⟨1, none, none, "2020-01-01"⟩] none none none none (some (1/2)) none
      10).1 (1/2) (Or.inl rfl),
    (C2_min_similarity_threshold [⟨7, 1⟩] [⟨7, 0⟩] (fun _ => -(9 : ℚ)/10)
      [⟨1, none, none, "2020-01-01"⟩] none none none none none none 10).2
      rfl rfl⟩

/-! Helper lemmas about the voting-record query. -/

lemma distinctOnGo_sublist :
    ∀ (l : List PolicyRow) (seen : List (Int × String)),
      List.Sublist (distinctOnGo seen l) l := by
  intro l
  induction l with
  | nil => intro seen; simp [distinctOnGo]
  | cons r rest ih =>
    intro seen
    rw [distinctOnGo]
    split
    · exact (ih seen).cons _
    · exact (ih _).cons₂ _

lemma distinctOnGo_eq_self :
    ∀ (l : List PolicyRow) (seen : List (Int × String)),
      (∀ r ∈ l, (r.person_id, r.name) ∉ seen) →
      ((l.map fun r => (r.person_id, r.name)).Nodup) →
      distinctOnGo seen l = l := by
  intro l
  induction l with
  | nil => intro seen _ _; rfl
  | cons r rest ih =>
    intro seen h1 h2
    rw [distinctOnGo, if_neg (h1 r (List.mem_cons_self r rest))]
    rw [List.map_cons, List.nodup_cons] at h2
    congr 1
    refine ih _ ?_ h2.2
    intro x hx
    simp only [List.mem_cons, not_or]
    constructor
    · intro hkey
      exact h2.1 (hkey ▸ List.mem_map_of_mem (fun r => (r.person_id, r.name)) hx)
    · exact h1 x (List.mem_cons_of_mem _ hx)

/-- C8: the claim's ordering is false — the query's `ORDER BY` begins with
`person_id, name` (required by `DISTINCT ON`), so results are ordered by
policy name ascending, not by alignment score descending: two matching
policies with scores 10 and 50 come back in name order `[10, 50]`. -/
theorem C8_counterexample :
    ((get_mp_voting_record
        [⟨1, "a climate", none, none, none, some 10, some 1, some 1, some 0,
          some 1, some 0, some 0, some 0, some 0, some 0⟩,
         ⟨1, "b climate", none, none, none, some 50, some 1, some 1, some 0,
          some 1, some 0, some 0, some 0, some 0, some 0⟩]
        1 "climate" 10).map fun v => v.mp_policy_alignment_score) =
      [some 10, some 50] ∧
    ¬ List.Pairwise
      (fun a b : VoteRec =>
        b.mp_policy_alignment_score.getD 0 ≤ a.mp_policy_alignment_score.getD 0)
      (get_mp_voting_record
        [⟨1, "a climate", none, none, none, some 10, some 1, some 1, some 0,
          some 1, some 0, some 0, some 0, some 0, some 0⟩,
         ⟨1, "b climate", none, none, none, some 50, some 1, some 1, some 0,
          some 1, some 0, some 0, some 0, some 0, some 0⟩]
        1 "climate" 10) := by
  constructor
  · decide
  · decide

/-- C8 (amended): the returned rows are drawn exactly from the rows
matching the person and the case-insensitive name substring whose period
id is the in-filter maximum, limited to `limit`; they are ordered by
person id then policy name ascending (the alignment-score and cast-vote
orderings only select the surviving row within a duplicate
`(person, name)` key); and each record's percentages satisfy
`percent_aligned = same/(same+different)·100`,
`percent_opposed = different/(same+different)·100` (0 when no votes were
cast), and `percent_absent`/`percent_abstain` against total opportunities,
all rounded to one decimal place. -/
theorem C8_voting_record_amended (rows : List PolicyRow) (p : Int)
    (term : String) (limit : Nat) :
    ∀ out, out = get_mp_voting_record rows p term limit →
      (∀ v ∈ out, ∃ r ∈ matchingRows rows p term, v = mkVoteRec r) ∧
      out.length ≤ limit ∧
      List.Pairwise
        (fun a b : VoteRec =>
          a.person_id < b.person_id ∨
            (a.person_id = b.person_id ∧
              a.policy_name.toList ≤ b.policy_name.toList)) out ∧
      (∀ v ∈ out,
        v.total_votes = v.num_votes_same.getD 0 + v.num_votes_different.getD 0 ∧
        v.total_opportunities = v.num_votes_same.getD 0 + v.num_votes_different.getD 0
          + v.num_votes_absent.getD 0 + v.num_votes_abstain.getD 0 ∧
        v.percent_aligned =
          (if v.num_votes_same.getD 0 + v.num_votes_different.getD 0 = 0 then 0
          else round1 ((v.num_votes_same.getD 0 : ℚ) /
            ((v.num_votes_same.getD 0 : ℚ) + (v.num_votes_different.getD 0 : ℚ)) * 100)) ∧
        v.percent_opposed =
          (if v.num_votes_same.getD 0 + v.num_votes_different.getD 0 = 0 then 0
          else round1 ((v.num_votes_different.getD 0 : ℚ) /
            ((v.num_votes_same.getD 0 : ℚ) + (v.num_votes_different.getD 0 : ℚ)) * 100)) ∧
        v.percent_absent =
          (if v.num_votes_same.getD 0 + v.num_votes_different.getD 0
              + v.num_votes_absent.getD 0 + v.num_votes_abstain.getD 0 = 0 then 0
          else round1 ((v.num_votes_absent.getD 0 : ℚ) /
            ((v.num_votes_same.getD 0 : ℚ) + (v.num_votes_different.getD 0 : ℚ)
              + (v.num_votes_absent.getD 0 : ℚ) + (v.num_votes_abstain.getD 0 : ℚ)) * 100)) ∧
        v.percent_abstain =
          (if v.num_votes_same.getD 0 + v.num_votes_different.getD 0
              + v.num_votes_absent.getD 0 + v.num_votes_abstain.getD 0 = 0 then 0
          else round1 ((v.num_votes_abstain.getD 0 : ℚ) /
            ((v.num_votes_same.getD 0 : ℚ) + (v.num_votes_different.getD 0 : ℚ)
              + (v.num_votes_absent.getD 0 : ℚ) + (v.num_votes_abstain.getD 0 : ℚ)) * 100))) ∧
      (((matchingRows rows p term).map fun r => (r.person_id, r.name)).Nodup →
        (matchingRows rows p term).length ≤ limit →
        ∀ r ∈ matchingRows rows p term, mkVoteRec r ∈ out) := by
  intro out hout
  haveI : IsTotal PolicyRow (fun a b => orderKey a ≤ orderKey b) :=
    ⟨fun a b => le_total _ _⟩
  haveI : IsTrans PolicyRow (fun a b => orderKey a ≤ orderKey b) :=
    ⟨fun a b c => le_trans⟩
  have hmem : ∀ v ∈ out, ∃ r ∈ matchingRows rows p term, v = mkVoteRec r := by
    intro v hv
    rw [hout, get_mp_voting_record] at hv
    obtain ⟨x, hx, hvx⟩ := List.mem_map.mp hv
    refine ⟨x, ?_, hvx.symm⟩
    have h1 := List.mem_of_mem_take hx
    have h2 := (distinctOnGo_sublist _ []).subset h1
    exact (List.perm_insertionSort _ _).mem_iff.mp h2
  refine ⟨hmem, ?_, ?_, ?_, ?_⟩
  · rw [hout, get_mp_voting_record]
    simp only [List.length_map]
    exact List.length_take_le _ _
  · rw [hout, get_mp_voting_record]
    rw [List.pairwise_map]
    have hsorted : List.Pairwise (fun a b => orderKey a ≤ orderKey b)
        ((matchingRows rows p term).insertionSort fun a b => orderKey a ≤ orderKey b) :=
      List.sorted_insertionSort _ _
    have hp : List.Pairwise (fun a b => orderKey a ≤ orderKey b)
        ((distinctOn ((matchingRows rows p term).insertionSort
          fun a b => orderKey a ≤ orderKey b)).take limit) :=
      (hsorted.sublist (distinctOnGo_sublist _ [])).sublist (List.take_sublist _ _)
    refine hp.imp ?_
    intro a b hab
    rcases (Prod.Lex.le_iff _ _).mp hab with h | ⟨heq, hrest⟩
    · exact Or.inl h
    · refine Or.inr ⟨heq, ?_⟩
      rcases (Prod.Lex.le_iff _ _).mp hrest with h | ⟨heq2, _⟩
      · exact le_of_lt h
      · exact le_of_eq heq2
  · intro v hv
    obtain ⟨r, _, hvr⟩ := hmem v hv
    subst hvr
    exact ⟨rfl, rfl, rfl, rfl, rfl, rfl⟩
  · intro hnodup hlen r hr
    have hperm := List.perm_insertionSort
      (fun a b => orderKey a ≤ orderKey b) (matchingRows rows p term)
    have hnd : (((matchingRows rows p term).insertionSort
        fun a b => orderKey a ≤ orderKey b).map
          fun r => (r.person_id, r.name)).Nodup :=
      ((hperm.map _).nodup_iff).mpr hnodup
    have heq : distinctOn ((matchingRows rows p term).insertionSort
        fun a b => orderKey a ≤ orderKey b) =
        (matchingRows rows p term).insertionSort fun a b => orderKey a ≤ orderKey b :=
      distinctOnGo_eq_self _ [] (fun x _ => by simp) hnd
    have htake : ((matchingRows rows p term).insertionSort
        fun a b => orderKey a ≤ orderKey b).take limit =
        (matchingRows rows p term).insertionSort fun a b => orderKey a ≤ orderKey b :=
      List.take_of_length_le (hperm.length_eq ▸ hlen)
    rw [hout, get_mp_voting_record, distinctOn] at *
    rw [heq, htake]
    exact List.mem_map_of_mem _ (hperm.mem_iff.mpr hr)

/-- C8 witness: the amended theorem at the counterexample's two-row table;
both matching policies are returned, in name order, within the limit. -/
theorem C8_witness :
    (∀ v ∈ get_mp_voting_record
        [⟨1, "a climate", none, none, none, some 10, some 1, some 1, some 0,
          some 1, some 0, some 0, some 0, some 0, some 0⟩,
         ⟨1, "b climate", none, none, none, some 50, some 1, some 1, some 0,
          some 1, some 0, some 0, some 0, some 0, some 0⟩] 1 "climate" 10,
      ∃ r ∈ matchingRows
        [⟨1, "a climate", none, none, none, some 10, some 1, some 1, some 0,
          some 1, some 0, some 0, some 0, some 0, some 0⟩,
         ⟨1, "b climate", none, none, none, some 50, some 1, some 1, some 0,
          some 1, some 0, some 0, some 0, some 0, some 0⟩] 1 "climate",
        v = mkVoteRec r) ∧
    (get_mp_voting_record
      [⟨1, "a climate", none, none, none, some 10, some 1, some 1, some 0,
        some 1, some 0, some 0, some 0, some 0, some 0⟩,
       ⟨1, "b climate", none, none, none, some 50, some 1, some 1, some 0,
        some 1, some 0, some 0, some 0, some 0, some 0⟩] 1 "climate" 10).length ≤ 10 ∧
    mkVoteRec ⟨1, "a climate", none, none, none, some 10, some 1, some 1, some 0,
        some 1, some 0, some 0, some 0, some 0, some 0⟩ ∈
      get_mp_voting_record
        [⟨1, "a climate", none, none, none, some 10, some 1, some 1, some 0,
          some 1, some 0, some 0, some 0, some 0, some 0⟩,
         ⟨1, "b climate", none, none, none, some 50, some 1, some 1, some 0,
          some 1, some 0, some 0, some 0, some 0, some 0⟩] 1 "climate" 10 := by
  have h := C8_voting_record_amended
    [⟨1, "a climate", none, none, none, some 10, some 1, some 1, some 0,
      some 1, some 0, some 0, some 0, some 0, some 0⟩,
     ⟨1, "b climate", none, none, none, some 50, some 1, some 1, some 0,
      some 1, some 0, some 0, some 0, some 0, some 0⟩] 1 "climate" 10 _ rfl
  exact ⟨h.1, h.2.1, h.2.2.2.2 (by decide) (by decide) _ (by decide)⟩

end OpenChambers
